import Mathlib

/-!
Verification of the gesture-interpretation core of the AlphaView web client
(`src/components/GestureController.tsx`).

The per-frame hand-landmark interpreter is embedded shallowly:

* a landmark is a pair of real coordinates (`Pt`);
* a hand is the list of its landmarks, a frame the list of detected hands;
* JavaScript property access on a possibly-undefined array element is
  modelled in the `Except Unit` monad: reading a field of `undefined`
  throws a `TypeError`, which the embedding represents as `.error ()`;
* the mutable refs of the React component (`lastLandmark`, `smoothedPos`,
  `lastPinchDist`, `isTapped`, `lastClickTime`, `lastResetTime`) together
  with the two relevant pieces of UI state form `InterpState`;
* both calls to `Date.now()` inside one invocation of `processFrame` are
  modelled by the single frame timestamp `now`, matching the fact that the
  frame is processed atomically;
* each call of the `onGesture` callback is recorded as one `GestureEvent`
  in the output list, in call order.
-/

namespace AlphaView

/-- Landmark point in normalized image coordinates (MediaPipe gives x, y). -/
structure Pt where
  x : ℝ
  y : ℝ

/-- One detected hand: its list of landmarks (MediaPipe emits 21 of them). -/
abbrev Hand := List Pt

/-- One processed frame: the list of detected hands (`results.landmarks`). -/
abbrev Frame := List Hand

/-- The label stored by `setActiveGesture` (source uses string literals). -/
inductive GLabel where
  | clickL
  | resetL
  | zoomL
  | panL
  | rotateL

/-- The tracking status stored by `setStatus`. -/
inductive TrackStatus where
  | idle
  | detecting
  | notFound

/-- One call of the `onGesture` callback. `noEvent` is the `onGesture(null)`
call issued when the camera is stopped. -/
inductive GestureEvent where
  | rotate (dx dy : ℝ)
  | pan (dx dy : ℝ)
  | zoom (delta : ℝ)
  | reset
  | click (x y : ℝ)
  | noEvent

/-- Coarse tag of an event, used to state shape properties without binders. -/
inductive GTag where
  | rotateT
  | panT
  | zoomT
  | resetT
  | clickT
  | noEventT
deriving DecidableEq

/-- Tag of a gesture event. -/
def eventTag : GestureEvent → GTag
  | .rotate _ _ => .rotateT
  | .pan _ _ => .panT
  | .zoom _ => .zoomT
  | .reset => .resetT
  | .click _ _ => .clickT
  | .noEvent => .noEventT

/-- Event is a click. -/
def isClickEv : GestureEvent → Bool
  | .click _ _ => true
  | _ => false

/-- Event is a zoom. -/
def isZoomEv : GestureEvent → Bool
  | .zoom _ => true
  | _ => false

/-- Number of click events in a list of emitted events. -/
def countClicks (l : List GestureEvent) : ℕ := (l.filter isClickEv).length

/-- The cross-frame state of the gesture interpreter: the component refs
`lastLandmark`, `smoothedPos`, `lastPinchDist`, `isTapped`, `lastClickTime`,
`lastResetTime`, plus the two pieces of React UI state that the frame loop
writes (`activeGesture`, `status`). -/
structure InterpState where
  lastLandmark : Option Pt
  smoothedPos : Pt
  lastPinchDist : Option ℝ
  isTapped : Bool
  lastClickTime : ℤ
  lastResetTime : ℤ
  activeGesture : Option GLabel
  status : TrackStatus

/-- Initial values of the refs and UI state, as set at component creation. -/
noncomputable def initState : InterpState :=
  { lastLandmark := none
    smoothedPos := ⟨0, 0⟩
    lastPinchDist := none
    isTapped := false
    lastClickTime := 0
    lastResetTime := 0
    activeGesture := none
    status := .idle }

/-- Hyperparameter ALPHA of the source (exponential smoothing factor). -/
noncomputable def ALPHA : ℝ := 0.4

/-- Hyperparameter GAIN of the source (rotation gain). -/
noncomputable def GAIN : ℝ := 15

/-- Hyperparameter DEADZONE of the source. -/
noncomputable def DEADZONE : ℝ := 0.003

/-- Hyperparameter CLICK_THRESHOLD of the source (pinch engage distance). -/
noncomputable def CLICK_THRESHOLD : ℝ := 0.07

/-- Hyperparameter CLICK_RELEASE of the source (pinch release distance). -/
noncomputable def CLICK_RELEASE : ℝ := 0.10

/-- JavaScript Math.hypot, the Euclidean norm of a 2D displacement. -/
noncomputable def hypot (x y : ℝ) : ℝ := Real.sqrt (x * x + y * y)

/-- Array access `landmarks[i]` followed by a property read: yields the
point when the index is in bounds and throws (`.error ()`) otherwise,
as JavaScript does when reading `.x` of `undefined`. -/
def getLm (h : Hand) (i : ℕ) : Except Unit Pt :=
  match h.get? i with
  | some p => .ok p
  | none => .error ()

/-- The source's `isExtended(tipIdx, dipIdx)`: a finger is extended iff the
tip is further from the wrist than the dip joint by the fixed margin 1.1.
The source also binds `mcp = landmarks[tipIdx - 3]` but never reads a
property of it, so that binding cannot throw and is omitted. -/
noncomputable def isExtended (landmarks : Hand) (tipIdx dipIdx : ℕ) : Except Unit Bool :=
  match getLm landmarks tipIdx with
  | .error e => .error e
  | .ok tip =>
    match getLm landmarks dipIdx with
    | .error e => .error e
    | .ok dip =>
      match getLm landmarks 0 with
      | .error e => .error e
      | .ok wrist =>
        let dTip := hypot (tip.x - wrist.x) (tip.y - wrist.y)
        let dDip := hypot (dip.x - wrist.x) (dip.y - wrist.y)
        .ok (decide (dTip > dDip * 1.1))

/-- Deadzone clamp of the source: an axis displacement of magnitude below
DEADZONE is set to 0 before smoothing. -/
noncomputable def deadzone (d : ℝ) : ℝ := if |d| < DEADZONE then 0 else d

/-- Exponential smoothing update of the source applied to both axes of the
(already deadzoned) displacement. -/
noncomputable def smoothPoint (old : Pt) (dx dy : ℝ) : Pt :=
  ⟨ALPHA * dx + (1 - ALPHA) * old.x, ALPHA * dy + (1 - ALPHA) * old.y⟩

/-- Motion-smoothing lines of `processFrame`: the raw index-tip displacement
since the previous frame is deadzoned per axis and blended into the
exponentially smoothed position. -/
noncomputable def smoothState (s : InterpState) (indexTip lastLm : Pt) : InterpState :=
  { s with
    smoothedPos :=
      smoothPoint s.smoothedPos (deadzone (indexTip.x - lastLm.x))
        (deadzone (indexTip.y - lastLm.y)) }

/-- Click block of `processFrame` (pinch latch with hysteresis): engage and
emit below CLICK_THRESHOLD when not latched, release above CLICK_RELEASE. -/
noncomputable def clickStep (s : InterpState) (tapDist : ℝ) (indexTip : Pt) (now : ℤ) :
    InterpState × List GestureEvent :=
  if tapDist < CLICK_THRESHOLD then
    let s1 := { s with activeGesture := some .clickL }
    if s1.isTapped then (s1, [])
    else ({ s1 with isTapped := true, lastClickTime := now },
          [.click indexTip.x indexTip.y])
  else if tapDist > CLICK_RELEASE then
    ({ s with isTapped := false }, [])
  else (s, [])

/-- The source's unified decision tree: open-palm reset with 2000 ms
debounce, then the 400 ms click lockout, then two-hand pinch zoom, then
pan, then rotate. `s` is the state after the click block ran, so
`lastClickTime` already reflects a click fired in this same frame. The
zoom branch reads `results.landmarks[1][8]`, which can throw. -/
noncomputable def decideStep (s : InterpState) (frame : Frame) (landmarks : Hand)
    (isPalm indexOut middleOut ringOut : Bool) (now : ℤ) :
    Except Unit (InterpState × List GestureEvent) :=
  if isPalm then
    if now - s.lastResetTime > 2000 then
      .ok ({ s with activeGesture := some .resetL, lastResetTime := now }, [.reset])
    else .ok (s, [])
  else if now - s.lastClickTime < 400 then
    .ok (s, [])
  else if frame.length == 2 then
    match getLm landmarks 8 with
    | .error e => .error e
    | .ok h1 =>
      match frame.get? 1 with
      | none => .error ()
      | some hand2 =>
        match getLm hand2 8 with
        | .error e => .error e
        | .ok h2 =>
          let dist := hypot (h1.x - h2.x) (h1.y - h2.y)
          let s1 := { s with activeGesture := some .zoomL }
          match s1.lastPinchDist with
          | some lp =>
            let delta := (dist - lp) * 20
            if |delta| > 0.005 then
              .ok ({ s1 with lastPinchDist := some dist }, [.zoom delta])
            else
              .ok ({ s1 with lastPinchDist := some dist }, [])
          | none => .ok ({ s1 with lastPinchDist := some dist }, [])
  else if middleOut && indexOut && !ringOut then
    .ok ({ s with activeGesture := some .panL },
         [.pan (-s.smoothedPos.x * GAIN * 1.5) (s.smoothedPos.y * GAIN * 1.5)])
  else if indexOut && !middleOut then
    .ok ({ s with activeGesture := some .rotateL },
         [.rotate (-s.smoothedPos.x * GAIN) (s.smoothedPos.y * GAIN)])
  else .ok (s, [])

/-- One invocation of the frame-processing body of `processFrame` for a
frame that passed the `readyState` guard: zero detected hands clear the
tracking state; otherwise finger extension, the pinch distance, the
deadzoned and smoothed fingertip displacement, the click latch and the
decision tree run in source order, and `lastLandmark` records the current
index tip. Throwing property accesses propagate as `.error ()`. -/
noncomputable def processFrame (s0 : InterpState) (frame : Frame) (now : ℤ) :
    Except Unit (InterpState × List GestureEvent) :=
  match frame.get? 0 with
  | none =>
    .ok ({ s0 with
           status := .notFound
           activeGesture := none
           lastLandmark := none
           lastPinchDist := none }, [])
  | some landmarks =>
    let s := { s0 with status := .detecting }
    match getLm landmarks 8 with
    | .error e => .error e
    | .ok indexTip =>
    match getLm landmarks 4 with
    | .error e => .error e
    | .ok thumbTip =>
    match isExtended landmarks 8 7 with
    | .error e => .error e
    | .ok indexOut =>
    match isExtended landmarks 12 11 with
    | .error e => .error e
    | .ok middleOut =>
    match isExtended landmarks 16 15 with
    | .error e => .error e
    | .ok ringOut =>
    match isExtended landmarks 20 19 with
    | .error e => .error e
    | .ok pinkyOut =>
    let isPalm := indexOut && middleOut && ringOut && pinkyOut
    let tapDist := hypot (indexTip.x - thumbTip.x) (indexTip.y - thumbTip.y)
    match s.lastLandmark with
    | some lastLm =>
      let s1 := smoothState s indexTip lastLm
      let cs := clickStep s1 tapDist indexTip now
      match decideStep cs.1 frame landmarks isPalm indexOut middleOut ringOut now with
      | .error e => .error e
      | .ok ds =>
        .ok ({ ds.1 with lastLandmark := some ⟨indexTip.x, indexTip.y⟩ },
             cs.2 ++ ds.2)
    | none =>
      .ok ({ s with
             lastPinchDist := none
             lastLandmark := some ⟨indexTip.x, indexTip.y⟩ }, [])

/-- Sequential processing of a list of timestamped frames, collecting the
events emitted at each frame (frame N+1 is only processed after frame N). -/
noncomputable def runFrames (s : InterpState) :
    List (Frame × ℤ) → Except Unit (InterpState × List (List GestureEvent))
  | [] => .ok (s, [])
  | (f, t) :: rest =>
    match processFrame s f t with
    | .error e => .error e
    | .ok (s1, evs) =>
      match runFrames s1 rest with
      | .error e => .error e
      | .ok (s2, evss) => .ok (s2, evs :: evss)

/-- Component-level state relevant to the capture lifecycle. -/
structure CompState where
  cameraActive : Bool
  interp : InterpState

/-- The source's `toggleCamera` (landmarker assumed initialized, camera
permission granted): stopping cancels the frame loop, releases the stream,
clears `cameraActive`, fires `onGesture(null)` and sets status IDLE;
starting only flips `cameraActive` and begins the loop. Neither branch
touches any of the interpreter refs. -/
noncomputable def toggleCamera (c : CompState) : CompState × List GestureEvent :=
  if c.cameraActive then
    ({ cameraActive := false, interp := { c.interp with status := .idle } },
     [.noEvent])
  else
    ({ cameraActive := true, interp := c.interp }, [])

/-- Landmark `i` of a hand, with a junk default for out-of-range indices;
used to state properties of frames whose lookups are known to succeed. -/
def ptD (h : Hand) (i : ℕ) : Pt := (h.get? i).getD ⟨0, 0⟩

/-- Pure value of the source's finger-extension test on an in-bounds hand. -/
noncomputable def isExtendedD (landmarks : Hand) (tipIdx dipIdx : ℕ) : Bool :=
  let tip := ptD landmarks tipIdx
  let dip := ptD landmarks dipIdx
  let wrist := ptD landmarks 0
  decide (hypot (tip.x - wrist.x) (tip.y - wrist.y) >
          hypot (dip.x - wrist.x) (dip.y - wrist.y) * 1.1)

/-- Thumb-tip to index-tip distance of the first hand of a frame. -/
noncomputable def tapDistOf (f : Frame) : ℝ :=
  let lms := (f.get? 0).getD []
  hypot ((ptD lms 8).x - (ptD lms 4).x) ((ptD lms 8).y - (ptD lms 4).y)

/-- Distance between the index tips of the two hands of a frame. -/
noncomputable def pinchDistOf (f : Frame) : ℝ :=
  let h1 := ptD ((f.get? 0).getD []) 8
  let h2 := ptD ((f.get? 1).getD []) 8
  hypot (h1.x - h2.x) (h1.y - h2.y)

/-- Every detected hand of the frame carries the full 21 landmarks. -/
def wfFrame (f : Frame) : Bool := f.all (fun h => h.length == 21)

/-- State of the interpreter on a detected-hand frame just before the click
block runs: status DETECTING and the smoothed displacement updated from the
index-tip motion since the previous frame. -/
noncomputable def preClickState (s : InterpState) (indexTip lastLm : Pt) : InterpState :=
  smoothState { s with status := .detecting } indexTip lastLm

/-- The exponential-smoothing recurrence of the source applied to one axis
with a constant raw displacement d, starting from the initial smoothed
value 0: smoothed = ALPHA * d + (1 - ALPHA) * smoothed_prev. -/
noncomputable def smoothIter (d : ℝ) : ℕ → ℝ
  | 0 => 0
  | n + 1 => ALPHA * d + (1 - ALPHA) * smoothIter d n

/-- Builder for a synthetic 21-landmark hand lying on the x-axis: wrist at
the origin, all four finger dip joints at x = 0.2, thumb tip and the four
fingertips as given, and filler points at x = 0.1 for the remaining
landmarks. -/
noncomputable def mkHand (th it mt rt pk : Pt) : Hand :=
  [⟨0, 0⟩, ⟨0.1, 0⟩, ⟨0.1, 0⟩, ⟨0.1, 0⟩, th, ⟨0.1, 0⟩, ⟨0.1, 0⟩, ⟨0.2, 0⟩, it,
   ⟨0.1, 0⟩, ⟨0.1, 0⟩, ⟨0.2, 0⟩, mt, ⟨0.1, 0⟩, ⟨0.1, 0⟩, ⟨0.2, 0⟩, rt,
   ⟨0.1, 0⟩, ⟨0.1, 0⟩, ⟨0.2, 0⟩, pk]

/-- Open-palm test hand: all four fingertips at x = 0.5 (extended), thumb
far away at x = 0.9, so the thumb-index distance is 0.4. -/
noncomputable def palmHand : Hand :=
  mkHand ⟨0.9, 0⟩ ⟨0.5, 0⟩ ⟨0.5, 0⟩ ⟨0.5, 0⟩ ⟨0.5, 0⟩

/-- Open-palm hand whose thumb tip simultaneously pinches the index tip:
all four fingertips at x = 0.5 (extended), thumb at x = 0.45, so the
thumb-index distance is 0.05, below the engage threshold. -/
noncomputable def palmPinchHand : Hand :=
  mkHand ⟨0.45, 0⟩ ⟨0.5, 0⟩ ⟨0.5, 0⟩ ⟨0.5, 0⟩ ⟨0.5, 0⟩

/-- Pointing test hand: index tip at x = 0.5 (extended), middle, ring and
pinky tips at x = 0.1 (not extended), thumb tip at the given x. -/
noncomputable def pointHand (thumbX : ℝ) : Hand :=
  mkHand ⟨thumbX, 0⟩ ⟨0.5, 0⟩ ⟨0.1, 0⟩ ⟨0.1, 0⟩ ⟨0.1, 0⟩

/-- Second hand for two-hand zoom tests: index tip (landmark 8) at x = 0.6. -/
noncomputable def zoomHand : Hand :=
  mkHand ⟨0.1, 0⟩ ⟨0.6, 0⟩ ⟨0.1, 0⟩ ⟨0.1, 0⟩ ⟨0.1, 0⟩

/-- Variant of `zoomHand` agreeing on landmark 8 but differing on several
other landmarks. -/
noncomputable def zoomHandAlt : Hand :=
  mkHand ⟨0.3, 0⟩ ⟨0.6, 0⟩ ⟨0.4, 0⟩ ⟨0.25, 0⟩ ⟨0.7, 0⟩

/-- Base interpreter state used by the concrete test scenarios: tracking
already acquired with the index tip recorded at (0.5, 0), smoothing at
rest, latch free, all timestamps at their initial value 0. -/
noncomputable def wBase : InterpState :=
  { lastLandmark := some ⟨0.5, 0⟩
    smoothedPos := ⟨0, 0⟩
    lastPinchDist := none
    isTapped := false
    lastClickTime := 0
    lastResetTime := 0
    activeGesture := none
    status := .detecting }

end AlphaView

namespace AlphaView

/-- Successful landmark lookup is exactly an in-bounds list access. -/
theorem getLm_ok_iff {h : Hand} {i : ℕ} {p : Pt} :
    getLm h i = .ok p ↔ h.get? i = some p := by
  unfold getLm
  cases hg : h.get? i <;> simp [hg]

/-- A successful lookup returns the defaulted projection `ptD`. -/
theorem getLm_ok_ptD {h : Hand} {i : ℕ} {p : Pt}
    (hp : getLm h i = .ok p) : ptD h i = p := by
  rw [getLm_ok_iff] at hp
  unfold ptD
  rw [hp]
  rfl

/-- In-bounds lookups succeed. -/
theorem getLm_ok_of_lt {h : Hand} {i : ℕ} (hi : i < h.length) :
    getLm h i = .ok (ptD h i) := by
  unfold getLm ptD
  cases hg : h.get? i with
  | none => exact absurd (List.get?_eq_none.mp hg) (by omega)
  | some p => simp [hg]

/-- Value of `Math.hypot` on a horizontal displacement to the right. -/
theorem hypot_nonneg_x {x : ℝ} (hx : 0 ≤ x) : hypot x 0 = x := by
  unfold hypot
  rw [mul_zero, add_zero, Real.sqrt_mul_self hx]

/-- Value of `Math.hypot` on a horizontal displacement to the left. -/
theorem hypot_nonpos_x {x : ℝ} (hx : x ≤ 0) : hypot x 0 = -x := by
  unfold hypot
  rw [mul_zero, add_zero, Real.sqrt_mul_self_eq_abs, abs_of_nonpos hx]

/-- The click block never touches the tracking, pinch, reset or smoothing
state. -/
theorem clickStep_preserves (s : InterpState) (d : ℝ) (p : Pt) (t : ℤ) :
    (clickStep s d p t).1.lastLandmark = s.lastLandmark ∧
    (clickStep s d p t).1.lastPinchDist = s.lastPinchDist ∧
    (clickStep s d p t).1.lastResetTime = s.lastResetTime ∧
    (clickStep s d p t).1.smoothedPos = s.smoothedPos ∧
    (clickStep s d p t).1.status = s.status := by
  simp only [clickStep]
  split_ifs <;> simp_all

/-- Latch update of the click block: engage below the engage threshold,
release above the release threshold, otherwise keep. -/
theorem clickStep_isTapped (s : InterpState) (d : ℝ) (p : Pt) (t : ℤ) :
    (clickStep s d p t).1.isTapped =
      (if d < CLICK_THRESHOLD then true
       else if d > CLICK_RELEASE then false
       else s.isTapped) := by
  simp only [clickStep]
  split_ifs with h1 h2 <;> simp_all

/-- Events of the click block: exactly one `click` when the pinch engages
while the latch is free, nothing otherwise. -/
theorem clickStep_events (s : InterpState) (d : ℝ) (p : Pt) (t : ℤ) :
    (clickStep s d p t).2 =
      (if d < CLICK_THRESHOLD ∧ s.isTapped = false
       then [GestureEvent.click p.x p.y] else []) := by
  simp only [clickStep]
  split_ifs with h1 h2 <;> simp_all

/-- Timestamp update of the click block. -/
theorem clickStep_lastClickTime (s : InterpState) (d : ℝ) (p : Pt) (t : ℤ) :
    (clickStep s d p t).1.lastClickTime =
      (if d < CLICK_THRESHOLD ∧ s.isTapped = false then t
       else s.lastClickTime) := by
  simp only [clickStep]
  split_ifs with h1 h2 <;> simp_all

end AlphaView

namespace AlphaView

/-- Case summary of the decision tree: it preserves the click latch and the
motion state, emits no click, emits at most one event, and fires a reset
exactly on an open palm whose 2000 ms cooldown has elapsed, in which case
it also stamps `lastResetTime`. -/
theorem decideStep_ok {s : InterpState} {f : Frame} {lms : Hand}
    {pal io mo ro : Bool} {t : ℤ} {ds : InterpState × List GestureEvent}
    (h : decideStep s f lms pal io mo ro t = .ok ds) :
    (ds.1.isTapped = s.isTapped ∧ ds.1.lastClickTime = s.lastClickTime ∧
     ds.1.lastLandmark = s.lastLandmark ∧ ds.1.smoothedPos = s.smoothedPos) ∧
    ds.2.filter isClickEv = [] ∧
    (ds.2 = [] ∨ ∃ e, ds.2 = [e]) ∧
    ((GestureEvent.reset ∈ ds.2) ↔ (pal = true ∧ t - s.lastResetTime > 2000)) ∧
    (GestureEvent.reset ∈ ds.2 → ds.1.lastResetTime = t) ∧
    (GestureEvent.reset ∉ ds.2 → ds.1.lastResetTime = s.lastResetTime) ∧
    (t - s.lastClickTime < 400 → ds.2 = [] ∨ ds.2 = [GestureEvent.reset]) := by
  simp only [decideStep] at h
  repeat' split at h
  all_goals
    simp only [Except.ok.injEq, reduceCtorEq] at h
  all_goals subst h
  all_goals simp_all [isClickEv]

/-- Decision tree on an open palm inside the reset cooldown: no event, no
state change (the suppressed reset is not queued). -/
theorem decideStep_palm_cooldown {s : InterpState} {f : Frame} {lms : Hand}
    {pal io mo ro : Bool} {t : ℤ}
    (hpal : pal = true) (hcd : ¬(t - s.lastResetTime > 2000)) :
    decideStep s f lms pal io mo ro t = .ok (s, []) := by
  simp only [decideStep, hpal, if_true, hcd, if_false]

/-- Decision tree on an open palm whose cooldown has elapsed: one reset. -/
theorem decideStep_palm_fire {s : InterpState} {f : Frame} {lms : Hand}
    {pal io mo ro : Bool} {t : ℤ}
    (hpal : pal = true) (hcd : t - s.lastResetTime > 2000) :
    decideStep s f lms pal io mo ro t =
      .ok ({ s with activeGesture := some .resetL, lastResetTime := t },
           [.reset]) := by
  simp only [decideStep, hpal, if_true, hcd, if_false]

/-- Decision tree under the 400 ms click lockout (no palm): no event. -/
theorem decideStep_locked {s : InterpState} {f : Frame} {lms : Hand}
    {pal io mo ro : Bool} {t : ℤ}
    (hpal : pal = false) (hlk : t - s.lastClickTime < 400) :
    decideStep s f lms pal io mo ro t = .ok (s, []) := by
  simp only [decideStep, hpal, hlk]
  simp

/-- Two-hand zoom branch with a previous pinch distance: the new pinch
distance is always recorded, and a zoom event is emitted exactly when the
scaled delta clears the 0.005 jitter threshold. -/
theorem decideStep_zoom {s : InterpState} {f : Frame} {lms hand2 : Hand}
    {pal io mo ro : Bool} {t : ℤ} {p1 p2 : Pt} {lp : ℝ}
    (hpal : pal = false) (hlk : ¬(t - s.lastClickTime < 400))
    (hlen : f.length = 2)
    (h1 : getLm lms 8 = .ok p1) (h2 : f.get? 1 = some hand2)
    (h3 : getLm hand2 8 = .ok p2) (hlp : s.lastPinchDist = some lp) :
    decideStep s f lms pal io mo ro t =
      (if |(hypot (p1.x - p2.x) (p1.y - p2.y) - lp) * 20| > 0.005 then
        .ok ({ s with
               activeGesture := some .zoomL
               lastPinchDist := some (hypot (p1.x - p2.x) (p1.y - p2.y)) },
             [.zoom ((hypot (p1.x - p2.x) (p1.y - p2.y) - lp) * 20)])
      else
        .ok ({ s with
               activeGesture := some .zoomL
               lastPinchDist := some (hypot (p1.x - p2.x) (p1.y - p2.y)) },
             [])) := by
  simp only [decideStep, hpal, hlk, hlen, h1, h2, h3, hlp]
  simp

end AlphaView

namespace AlphaView

/-- Unfolding of `tapDistOf` on a frame with a known first hand. -/
theorem tapDistOf_eq {f : Frame} {lms : Hand} (h0 : f.get? 0 = some lms) :
    tapDistOf f =
      hypot ((ptD lms 8).x - (ptD lms 4).x) ((ptD lms 8).y - (ptD lms 4).y) := by
  unfold tapDistOf
  rw [h0]
  rfl

/-- Finger-extension test on a hand whose landmark indices are in bounds. -/
theorem isExtended_wf {lms : Hand} {tipIdx dipIdx : ℕ}
    (ht : tipIdx < lms.length) (hd : dipIdx < lms.length) (h0 : 0 < lms.length) :
    isExtended lms tipIdx dipIdx = .ok (isExtendedD lms tipIdx dipIdx) := by
  unfold isExtended isExtendedD
  rw [getLm_ok_of_lt ht, getLm_ok_of_lt hd, getLm_ok_of_lt h0]

/-- Inversion of one successful frame-processing step: either no hand was
detected and the tracking state was cleared, or it is the first detected
frame (no previous fingertip) and only the fingertip is recorded, or the
full click-then-decision pipeline ran. -/
theorem processFrame_inv {s : InterpState} {f : Frame} {t : ℤ}
    {s' : InterpState} {evs : List GestureEvent}
    (h : processFrame s f t = .ok (s', evs)) :
    (f.get? 0 = none ∧ evs = [] ∧
      s' = { s with
             status := .notFound
             activeGesture := none
             lastLandmark := none
             lastPinchDist := none }) ∨
    (∃ lms, f.get? 0 = some lms ∧ s.lastLandmark = none ∧ evs = [] ∧
      s' = { s with
             status := .detecting
             lastPinchDist := none
             lastLandmark := some (ptD lms 8) }) ∨
    (∃ lms q io mo ro po ds,
      f.get? 0 = some lms ∧ s.lastLandmark = some q ∧
      isExtended lms 8 7 = .ok io ∧ isExtended lms 12 11 = .ok mo ∧
      isExtended lms 16 15 = .ok ro ∧ isExtended lms 20 19 = .ok po ∧
      decideStep (clickStep (preClickState s (ptD lms 8) q) (tapDistOf f) (ptD lms 8) t).1
        f lms (io && mo && ro && po) io mo ro t = .ok ds ∧
      evs = (clickStep (preClickState s (ptD lms 8) q) (tapDistOf f) (ptD lms 8) t).2 ++ ds.2 ∧
      s' = { ds.1 with lastLandmark := some (ptD lms 8) }) := by
  simp only [processFrame] at h
  cases h0 : f.get? 0 with
  | none =>
    simp only [h0] at h
    simp only [Except.ok.injEq, Prod.mk.injEq] at h
    exact Or.inl ⟨rfl, h.2.symm, h.1.symm⟩
  | some lms =>
    simp only [h0] at h
    cases h8 : getLm lms 8 with
    | error e => simp [h8] at h
    | ok indexTip =>
      simp only [h8] at h
      cases h4 : getLm lms 4 with
      | error e => simp [h4] at h
      | ok thumbTip =>
        simp only [h4] at h
        cases hio : isExtended lms 8 7 with
        | error e => simp [hio] at h
        | ok io =>
          simp only [hio] at h
          cases hmo : isExtended lms 12 11 with
          | error e => simp [hmo] at h
          | ok mo =>
            simp only [hmo] at h
            cases hro : isExtended lms 16 15 with
            | error e => simp [hro] at h
            | ok ro =>
              simp only [hro] at h
              cases hpo : isExtended lms 20 19 with
              | error e => simp [hpo] at h
              | ok po =>
                simp only [hpo] at h
                have hit : ptD lms 8 = indexTip := getLm_ok_ptD h8
                have htt : ptD lms 4 = thumbTip := getLm_ok_ptD h4
                cases hLL : s.lastLandmark with
                | none =>
                  simp only [hLL] at h
                  simp only [Except.ok.injEq, Prod.mk.injEq] at h
                  refine Or.inr (Or.inl ⟨lms, rfl, rfl, h.2.symm, ?_⟩)
                  rw [← h.1, hit]
                | some q =>
                  simp only [hLL] at h
                  split at h
                  · simp at h
                  · rename_i ds heqds
                    simp only [Except.ok.injEq, Prod.mk.injEq] at h
                    refine Or.inr (Or.inr ⟨lms, q, io, mo, ro, po, ds, rfl, rfl,
                      hio, hmo, hro, hpo, ?_, ?_, ?_⟩)
                    · unfold preClickState
                      rw [tapDistOf_eq h0, hit, htt, hLL]
                      exact heqds
                    · unfold preClickState
                      rw [tapDistOf_eq h0, hit, htt, hLL, ← h.2]
                    · rw [← h.1, hit]

end AlphaView

namespace AlphaView

/-- The pre-click state only changes status and smoothed position. -/
theorem preClickState_fields (s : InterpState) (it q : Pt) :
    (preClickState s it q).isTapped = s.isTapped ∧
    (preClickState s it q).lastClickTime = s.lastClickTime ∧
    (preClickState s it q).lastResetTime = s.lastResetTime ∧
    (preClickState s it q).lastPinchDist = s.lastPinchDist ∧
    (preClickState s it q).smoothedPos =
      smoothPoint s.smoothedPos (deadzone (it.x - q.x)) (deadzone (it.y - q.y)) :=
  ⟨rfl, rfl, rfl, rfl, rfl⟩

/-- Reset projection of one frame step: a reset can only fire when the
2000 ms cooldown since `lastResetTime` has elapsed, a fired reset stamps
`lastResetTime` with the frame time, and without a reset the stamp is
unchanged. -/
theorem processFrame_reset {s : InterpState} {f : Frame} {t : ℤ}
    {s' : InterpState} {evs : List GestureEvent}
    (h : processFrame s f t = .ok (s', evs)) :
    (GestureEvent.reset ∈ evs → t - s.lastResetTime > 2000 ∧ s'.lastResetTime = t) ∧
    (GestureEvent.reset ∉ evs → s'.lastResetTime = s.lastResetTime) := by
  rcases processFrame_inv h with ⟨h0, hevs, hs⟩ |
    ⟨lms, h0, hLL, hevs, hs⟩ |
    ⟨lms, q, io, mo, ro, po, ds, h0, hLL, hio, hmo, hro, hpo, hds, hevs, hs⟩
  · subst hevs; subst hs; simp
  · subst hevs; subst hs; simp
  · obtain ⟨⟨dTap, dCk, dLL, dSm⟩, dNoClick, dShape, dResetIff, dResetTime, dKeep, dLock⟩ :=
      decideStep_ok hds
    obtain ⟨pLL, pPD, pRT, pSm, pSt⟩ :=
      clickStep_preserves (preClickState s (ptD lms 8) q) (tapDistOf f) (ptD lms 8) t
    have hcs2 := clickStep_events (preClickState s (ptD lms 8) q) (tapDistOf f) (ptD lms 8) t
    have hmem : GestureEvent.reset ∈ evs ↔ GestureEvent.reset ∈ ds.2 := by
      subst hevs
      rw [List.mem_append, hcs2]
      constructor
      · rintro (hm | hm)
        · split at hm <;> simp_all
        · exact hm
      · exact fun hm => Or.inr hm
    have hrt : s'.lastResetTime = ds.1.lastResetTime := by
      subst hs; rfl
    have hcsrt : (clickStep (preClickState s (ptD lms 8) q) (tapDistOf f) (ptD lms 8) t).1.lastResetTime
        = s.lastResetTime := by
      rw [pRT]
      exact (preClickState_fields s (ptD lms 8) q).2.2.1
    constructor
    · intro hm
      have hm' := hmem.mp hm
      have h1 := dResetIff.mp hm'
      refine ⟨by rw [← hcsrt]; exact h1.2, ?_⟩
      rw [hrt]
      exact dResetTime hm'
    · intro hm
      have hm' : GestureEvent.reset ∉ ds.2 := fun hx => hm (hmem.mpr hx)
      rw [hrt, dKeep hm', hcsrt]

/-- Each frame step either keeps `lastResetTime` or stamps it with the
frame's own timestamp. -/
theorem processFrame_resetTime_cases {s : InterpState} {f : Frame} {t : ℤ}
    {s' : InterpState} {evs : List GestureEvent}
    (h : processFrame s f t = .ok (s', evs)) :
    s'.lastResetTime = s.lastResetTime ∨ s'.lastResetTime = t := by
  have hr := processFrame_reset h
  by_cases hm : GestureEvent.reset ∈ evs
  · exact Or.inr (hr.1 hm).2
  · exact Or.inl (hr.2 hm)

end AlphaView

namespace AlphaView

/-- Click counting distributes over concatenated event lists. -/
theorem countClicks_append (a b : List GestureEvent) :
    countClicks (a ++ b) = countClicks a + countClicks b := by
  unfold countClicks
  rw [List.filter_append, List.length_append]

/-- Click projection of one detected-hand frame step with a previous
fingertip: exactly one click fires iff the pinch distance is below the
engage threshold while the latch is free, and the latch follows the
engage/release hysteresis. The fingertip is always re-recorded. -/
theorem processFrame_click {s : InterpState} {f : Frame} {t : ℤ}
    {s' : InterpState} {evs : List GestureEvent} {lms : Hand} {q : Pt}
    (h : processFrame s f t = .ok (s', evs))
    (h0 : f.get? 0 = some lms) (hLL : s.lastLandmark = some q) :
    countClicks evs = (if tapDistOf f < CLICK_THRESHOLD ∧ s.isTapped = false then 1 else 0) ∧
    s'.isTapped = (if tapDistOf f < CLICK_THRESHOLD then true
                   else if tapDistOf f > CLICK_RELEASE then false else s.isTapped) ∧
    s'.lastLandmark = some (ptD lms 8) := by
  rcases processFrame_inv h with ⟨g0, _, _⟩ |
    ⟨lms', g0, gLL, _, _⟩ |
    ⟨lms', q', io, mo, ro, po, ds, g0, gLL, _, _, _, _, hds, hevs, hs⟩
  · rw [h0] at g0
    exact Option.noConfusion g0
  · rw [hLL] at gLL
    exact Option.noConfusion gLL
  · rw [h0] at g0
    injection g0 with g0
    subst g0
    rw [hLL] at gLL
    injection gLL with gLL
    subst gLL
    obtain ⟨⟨dTap, dCk, dLL, dSm⟩, dNoClick, dShape, dResetIff, dResetTime, dKeep, dLock⟩ :=
      decideStep_ok hds
    have hpcT : (preClickState s (ptD lms 8) q).isTapped = s.isTapped :=
      (preClickState_fields s (ptD lms 8) q).1
    have hcs2 := clickStep_events (preClickState s (ptD lms 8) q) (tapDistOf f) (ptD lms 8) t
    have hcsT := clickStep_isTapped (preClickState s (ptD lms 8) q) (tapDistOf f) (ptD lms 8) t
    simp only [hpcT] at hcs2 hcsT
    refine ⟨?_, ?_, ?_⟩
    · subst hevs
      rw [countClicks_append, hcs2]
      have hdc : countClicks ds.2 = 0 := by
        unfold countClicks
        rw [dNoClick]
        rfl
      rw [hdc]
      by_cases hc : tapDistOf f < CLICK_THRESHOLD ∧ s.isTapped = false
      · simp [hc, countClicks, isClickEv]
      · simp [hc, countClicks]
    · have hs' : s'.isTapped = ds.1.isTapped := by subst hs; rfl
      rw [hs', dTap, hcsT]
    · subst hs
      rfl

/-- Event-shape of one frame step: at most two events are emitted, and the
only two-event case is a click followed by a reset. -/
theorem processFrame_shape {s : InterpState} {f : Frame} {t : ℤ}
    {s' : InterpState} {evs : List GestureEvent}
    (h : processFrame s f t = .ok (s', evs)) :
    evs.length ≤ 2 ∧
    (evs.length = 2 → evs.map eventTag = [GTag.clickT, GTag.resetT]) := by
  rcases processFrame_inv h with ⟨_, hevs, _⟩ |
    ⟨lms, _, _, hevs, _⟩ |
    ⟨lms, q, io, mo, ro, po, ds, h0, hLL, _, _, _, _, hds, hevs, hs⟩
  · subst hevs; simp
  · subst hevs; simp
  · obtain ⟨⟨dTap, dCk, dLL, dSm⟩, dNoClick, dShape, dResetIff, dResetTime, dKeep, dLock⟩ :=
      decideStep_ok hds
    have hcs2 := clickStep_events (preClickState s (ptD lms 8) q) (tapDistOf f) (ptD lms 8) t
    have hck := clickStep_lastClickTime (preClickState s (ptD lms 8) q) (tapDistOf f) (ptD lms 8) t
    subst hevs
    by_cases hc : tapDistOf f < CLICK_THRESHOLD ∧
        (preClickState s (ptD lms 8) q).isTapped = false
    · have hlocked : (clickStep (preClickState s (ptD lms 8) q) (tapDistOf f) (ptD lms 8) t).1.lastClickTime = t := by
        rw [hck, if_pos hc]
      have hdd := dLock (by rw [hlocked]; omega)
      rw [hcs2, if_pos hc]
      rcases hdd with hdd | hdd <;> rw [hdd] <;> simp [eventTag]
    · rw [hcs2, if_neg hc, List.nil_append]
      rcases dShape with hdd | ⟨e, hdd⟩ <;> rw [hdd] <;> simp

end AlphaView

namespace AlphaView

/-- Inversion of the two-hand zoom branch: when the decision tree succeeds
with no palm, no lockout and exactly two hands, the second hand\'s index tip
was read, the new pinch separation is always recorded, and a zoom event is
emitted exactly when the scaled delta clears the jitter threshold. -/
theorem decideStep_zoom_inv {s : InterpState} {f : Frame} {lms : Hand}
    {pal io mo ro : Bool} {t : ℤ} {ds : InterpState × List GestureEvent} {lp : ℝ}
    (hpal : pal = false) (hlk : ¬(t - s.lastClickTime < 400)) (hlen : f.length = 2)
    (hlp : s.lastPinchDist = some lp)
    (h : decideStep s f lms pal io mo ro t = .ok ds) :
    ∃ hand2, f.get? 1 = some hand2 ∧
      ds.1.lastPinchDist =
        some (hypot ((ptD lms 8).x - (ptD hand2 8).x) ((ptD lms 8).y - (ptD hand2 8).y)) ∧
      ds.2 = (if |(hypot ((ptD lms 8).x - (ptD hand2 8).x) ((ptD lms 8).y - (ptD hand2 8).y) - lp) * 20| > 0.005
              then [GestureEvent.zoom ((hypot ((ptD lms 8).x - (ptD hand2 8).x) ((ptD lms 8).y - (ptD hand2 8).y) - lp) * 20)]
              else []) := by
  simp only [decideStep, hpal, Bool.false_eq_true, if_false, hlk, hlen] at h
  simp only [beq_self_eq_true, if_true] at h
  cases h8 : getLm lms 8 with
  | error e => simp [h8] at h
  | ok p1 =>
    simp only [h8] at h
    cases h1 : f.get? 1 with
    | none =>
      rw [List.get?_eq_getElem?] at h1
      simp [h1] at h
    | some hand2 =>
      simp only [h1] at h
      cases h28 : getLm hand2 8 with
      | error e => simp [h28] at h
      | ok p2 =>
        simp only [h28] at h
        have hp1 : ptD lms 8 = p1 := getLm_ok_ptD h8
        have hp2 : ptD hand2 8 = p2 := getLm_ok_ptD h28
        simp only [hlp] at h
        refine ⟨hand2, rfl, ?_, ?_⟩
        · rw [hp1, hp2]
          split at h <;> simp only [Except.ok.injEq] at h <;> rw [← h]
        · rw [hp1, hp2]
          split at h <;> rename_i hcond <;> simp only [Except.ok.injEq] at h
          · rw [← h, if_pos hcond]
          · rw [← h, if_neg hcond]

/-- The decision tree cannot throw on a frame whose hands all carry the
full 21 landmarks. -/
theorem decideStep_total {s : InterpState} {f : Frame} {lms : Hand}
    {pal io mo ro : Bool} {t : ℤ}
    (hlms : lms.length = 21) (hwf : ∀ h2 ∈ f, List.length h2 = 21) :
    ∃ ds, decideStep s f lms pal io mo ro t = .ok ds := by
  unfold decideStep
  split_ifs with h1 h2 h3 h4 h5 h6
  · exact ⟨_, rfl⟩
  · exact ⟨_, rfl⟩
  · exact ⟨_, rfl⟩
  · have hlen : f.length = 2 := by simpa using h4
    have h1lt : 1 < f.length := by omega
    have hh1 : f.get? 1 = some (f.get ⟨1, h1lt⟩) := List.get?_eq_get h1lt
    have h2len : (f.get ⟨1, h1lt⟩).length = 21 := hwf _ (List.get_mem f 1 h1lt)
    rw [getLm_ok_of_lt (by omega : (8:ℕ) < lms.length)]
    simp only [← List.get?_eq_getElem?, hh1,
      getLm_ok_of_lt (by omega : (8:ℕ) < (f.get ⟨1, h1lt⟩).length)]
    cases hpd : s.lastPinchDist with
    | none => simp only [hpd]; exact ⟨_, rfl⟩
    | some lp =>
      simp only [hpd]
      split_ifs <;> exact ⟨_, rfl⟩
  · exact ⟨_, rfl⟩
  · exact ⟨_, rfl⟩
  · exact ⟨_, rfl⟩

/-- On frames whose detected hands all carry 21 landmarks, the per-frame
processing step never throws. -/
theorem processFrame_total (s : InterpState) (f : Frame) (t : ℤ)
    (hwf : wfFrame f = true) :
    ∃ out, processFrame s f t = .ok out := by
  have hwf2 : ∀ h2 ∈ f, List.length h2 = 21 := by
    intro h2 hm
    have := (List.all_eq_true.mp hwf) h2 hm
    simpa using this
  unfold processFrame
  cases h0 : f.get? 0 with
  | none => exact ⟨_, rfl⟩
  | some lms =>
    have hlms : lms.length = 21 := hwf2 lms (List.get?_mem h0)
    simp only [getLm_ok_of_lt (by omega : (8:ℕ) < lms.length),
        getLm_ok_of_lt (by omega : (4:ℕ) < lms.length),
        isExtended_wf (by omega : (8:ℕ) < lms.length) (by omega : (7:ℕ) < lms.length) (by omega),
        isExtended_wf (by omega : (12:ℕ) < lms.length) (by omega : (11:ℕ) < lms.length) (by omega),
        isExtended_wf (by omega : (16:ℕ) < lms.length) (by omega : (15:ℕ) < lms.length) (by omega),
        isExtended_wf (by omega : (20:ℕ) < lms.length) (by omega : (19:ℕ) < lms.length) (by omega)]
    cases hLL : s.lastLandmark with
    | none => simp only [hLL]; exact ⟨_, rfl⟩
    | some q =>
      simp only [hLL]
      obtain ⟨ds, hds⟩ := @decideStep_total (clickStep
        (smoothState { s with lastLandmark := some q, status := TrackStatus.detecting } (ptD lms 8) q)
        (hypot ((ptD lms 8).x - (ptD lms 4).x) ((ptD lms 8).y - (ptD lms 4).y))
        (ptD lms 8) t).1 f lms
        (isExtendedD lms 8 7 && isExtendedD lms 12 11 && isExtendedD lms 16 15 && isExtendedD lms 20 19)
        (isExtendedD lms 8 7) (isExtendedD lms 12 11) (isExtendedD lms 16 15)
        t hlms hwf2
      rw [hds]
      exact ⟨_, rfl⟩

end AlphaView

namespace AlphaView

/-- Inversion of a run over a nonempty frame list. -/
theorem runFrames_cons_inv {s : InterpState} {f : Frame} {t : ℤ}
    {rest : List (Frame × ℤ)} {s2 : InterpState} {evss : List (List GestureEvent)}
    (h : runFrames s ((f, t) :: rest) = .ok (s2, evss)) :
    ∃ s1 evs evss', processFrame s f t = .ok (s1, evs) ∧
      runFrames s1 rest = .ok (s2, evss') ∧ evss = evs :: evss' := by
  simp only [runFrames] at h
  cases hp : processFrame s f t with
  | error e =>
    simp only [hp] at h
    exact Except.noConfusion h
  | ok pr =>
    obtain ⟨s1, evs⟩ := pr
    simp only [hp] at h
    cases hr : runFrames s1 rest with
    | error e =>
      simp only [hr] at h
      exact Except.noConfusion h
    | ok pr2 =>
      obtain ⟨s2', evss'⟩ := pr2
      simp only [hr, Except.ok.injEq, Prod.mk.injEq] at h
      exact ⟨s1, evs, evss', rfl, by rw [hr, h.1], h.2.symm⟩

/-- Inversion of a run over concatenated frame lists. -/
theorem runFrames_append_inv {A B : List (Frame × ℤ)} {s sf : InterpState}
    {evss : List (List GestureEvent)}
    (h : runFrames s (A ++ B) = .ok (sf, evss)) :
    ∃ sA evsA evsB, runFrames s A = .ok (sA, evsA) ∧
      runFrames sA B = .ok (sf, evsB) ∧ evss = evsA ++ evsB := by
  induction A generalizing s evss with
  | nil => exact ⟨s, [], evss, rfl, h, rfl⟩
  | cons p rest ih =>
    obtain ⟨f, t⟩ := p
    obtain ⟨s1, evs, evss', hp, hr, rfl⟩ := runFrames_cons_inv h
    obtain ⟨sA, evsA, evsB, hA, hB, rfl⟩ := ih hr
    refine ⟨sA, evs :: evsA, evsB, ?_, hB, rfl⟩
    simp only [runFrames, hp, hA]

/-- Along any processed run, `lastResetTime` never drops below a bound that
holds for the initial state and all frame timestamps. -/
theorem runFrames_resetTime_lb {M : List (Frame × ℤ)} {s s2 : InterpState}
    {evss : List (List GestureEvent)} {b : ℤ}
    (h : runFrames s M = .ok (s2, evss))
    (hts : ∀ p ∈ M, b ≤ p.2) (hb : b ≤ s.lastResetTime) :
    b ≤ s2.lastResetTime := by
  induction M generalizing s evss with
  | nil =>
    simp only [runFrames, Except.ok.injEq, Prod.mk.injEq] at h
    rw [← h.1]
    exact hb
  | cons p rest ih =>
    obtain ⟨f, t⟩ := p
    obtain ⟨s1, evs, evss', hp, hr, rfl⟩ := runFrames_cons_inv h
    have h1 : b ≤ s1.lastResetTime := by
      rcases processFrame_resetTime_cases hp with he | he
      · rw [he]; exact hb
      · rw [he]; exact hts (f, t) (List.mem_cons_self _ _)
    exact ih hr (fun p hm => hts p (List.mem_cons_of_mem _ hm)) h1

/-- A run over detected-hand frames that all stay at or above the engage
threshold emits no click, keeps a recorded fingertip, and cannot engage a
free latch. -/
theorem runFrames_no_engage {seg : List (Frame × ℤ)} {s s2 : InterpState}
    {evss : List (List GestureEvent)}
    (h : runFrames s seg = .ok (s2, evss))
    (hseg : ∀ p ∈ seg, (∃ lms, List.get? p.1 0 = some lms) ∧
      ¬(tapDistOf p.1 < CLICK_THRESHOLD))
    (hLL : ∃ q, s.lastLandmark = some q) :
    countClicks evss.flatten = 0 ∧ (∃ q2, s2.lastLandmark = some q2) ∧
    (s.isTapped = false → s2.isTapped = false) := by
  induction seg generalizing s evss with
  | nil =>
    simp only [runFrames, Except.ok.injEq, Prod.mk.injEq] at h
    obtain ⟨hs, hevss⟩ := h
    subst hs
    rw [← hevss]
    exact ⟨rfl, hLL, fun hf => hf⟩
  | cons p rest ih =>
    obtain ⟨f, t⟩ := p
    obtain ⟨s1, evs, evss', hp, hr, rfl⟩ := runFrames_cons_inv h
    obtain ⟨⟨lms, h0⟩, htd⟩ := hseg (f, t) (List.mem_cons_self _ _)
    obtain ⟨q, hq⟩ := hLL
    obtain ⟨hcc, htap, hrec⟩ := processFrame_click hp h0 hq
    have hc0 : countClicks evs = 0 := by
      rw [hcc, if_neg]
      exact fun hcon => htd hcon.1
    have ihr := ih hr (fun p hm => hseg p (List.mem_cons_of_mem _ hm)) ⟨_, hrec⟩
    refine ⟨?_, ihr.2.1, ?_⟩
    · rw [List.flatten_cons, countClicks_append, hc0, ihr.1]
    · intro hf
      refine ihr.2.2 ?_
      rw [htap, if_neg htd, hf, ite_self]

/-- A run over detected-hand frames that all stay below the engage
threshold while the latch is already engaged emits no click and keeps the
latch engaged. -/
theorem runFrames_latched {seg : List (Frame × ℤ)} {s s2 : InterpState}
    {evss : List (List GestureEvent)}
    (h : runFrames s seg = .ok (s2, evss))
    (hseg : ∀ p ∈ seg, (∃ lms, List.get? p.1 0 = some lms) ∧
      tapDistOf p.1 < CLICK_THRESHOLD)
    (hT : s.isTapped = true) (hLL : ∃ q, s.lastLandmark = some q) :
    countClicks evss.flatten = 0 ∧ s2.isTapped = true ∧
    (∃ q2, s2.lastLandmark = some q2) := by
  induction seg generalizing s evss with
  | nil =>
    simp only [runFrames, Except.ok.injEq, Prod.mk.injEq] at h
    obtain ⟨hs, hevss⟩ := h
    subst hs
    rw [← hevss]
    exact ⟨rfl, hT, hLL⟩
  | cons p rest ih =>
    obtain ⟨f, t⟩ := p
    obtain ⟨s1, evs, evss', hp, hr, rfl⟩ := runFrames_cons_inv h
    obtain ⟨⟨lms, h0⟩, htd⟩ := hseg (f, t) (List.mem_cons_self _ _)
    obtain ⟨q, hq⟩ := hLL
    obtain ⟨hcc, htap, hrec⟩ := processFrame_click hp h0 hq
    have hc0 : countClicks evs = 0 := by
      rw [hcc, if_neg]
      exact fun hcon => by rw [hT] at hcon; exact Bool.true_eq_false.mp hcon.2
    have hT1 : s1.isTapped = true := by
      rw [htap, if_pos htd]
    have ihr := ih hr (fun p hm => hseg p (List.mem_cons_of_mem _ hm)) hT1 ⟨_, hrec⟩
    refine ⟨?_, ihr.2.1, ihr.2.2⟩
    rw [List.flatten_cons, countClicks_append, hc0, ihr.1]

end AlphaView

namespace AlphaView

/-- Landmark projections of the synthetic hand builder. -/
theorem ptD_mk0 (th it mt rt pk : Pt) : ptD (mkHand th it mt rt pk) 0 = ⟨0, 0⟩ := rfl

/-- Thumb-tip projection of the synthetic hand builder. -/
theorem ptD_mk4 (th it mt rt pk : Pt) : ptD (mkHand th it mt rt pk) 4 = th := rfl

/-- Index-dip projection of the synthetic hand builder. -/
theorem ptD_mk7 (th it mt rt pk : Pt) : ptD (mkHand th it mt rt pk) 7 = ⟨0.2, 0⟩ := rfl

/-- Index-tip projection of the synthetic hand builder. -/
theorem ptD_mk8 (th it mt rt pk : Pt) : ptD (mkHand th it mt rt pk) 8 = it := rfl

/-- Middle-dip projection of the synthetic hand builder. -/
theorem ptD_mk11 (th it mt rt pk : Pt) : ptD (mkHand th it mt rt pk) 11 = ⟨0.2, 0⟩ := rfl

/-- Middle-tip projection of the synthetic hand builder. -/
theorem ptD_mk12 (th it mt rt pk : Pt) : ptD (mkHand th it mt rt pk) 12 = mt := rfl

/-- Ring-dip projection of the synthetic hand builder. -/
theorem ptD_mk15 (th it mt rt pk : Pt) : ptD (mkHand th it mt rt pk) 15 = ⟨0.2, 0⟩ := rfl

/-- Ring-tip projection of the synthetic hand builder. -/
theorem ptD_mk16 (th it mt rt pk : Pt) : ptD (mkHand th it mt rt pk) 16 = rt := rfl

/-- Pinky-dip projection of the synthetic hand builder. -/
theorem ptD_mk19 (th it mt rt pk : Pt) : ptD (mkHand th it mt rt pk) 19 = ⟨0.2, 0⟩ := rfl

/-- Pinky-tip projection of the synthetic hand builder. -/
theorem ptD_mk20 (th it mt rt pk : Pt) : ptD (mkHand th it mt rt pk) 20 = pk := rfl

/-- The builder always yields 21 landmarks. -/
theorem mkHand_length (th it mt rt pk : Pt) : (mkHand th it mt rt pk).length = 21 := rfl

/-- A finger whose tip sits on the x-axis at a nonnegative abscissa, with
the dip at x = 0.2 and the wrist at the origin, is classified by the
source's test according to the fixed-margin comparison. -/
theorem isExtendedD_x {h : Hand} {tipIdx dipIdx : ℕ} {a : ℝ}
    (ha : 0 ≤ a)
    (htip : ptD h tipIdx = ⟨a, 0⟩)
    (hdip : ptD h dipIdx = ⟨0.2, 0⟩)
    (hw : ptD h 0 = ⟨0, 0⟩) :
    isExtendedD h tipIdx dipIdx = decide (a > 0.22) := by
  unfold isExtendedD
  rw [htip, hdip, hw]
  simp only [sub_zero]
  have h1 : hypot a 0 = a := hypot_nonneg_x ha
  have h2 : hypot 0.2 0 = 0.2 := hypot_nonneg_x (by norm_num)
  rw [h1, h2]
  have h3 : (0.2 : ℝ) * 1.1 = 0.22 := by norm_num
  rw [h3]

end AlphaView

namespace AlphaView

/-- All four fingers of the open-palm test hand are classified extended. -/
theorem palmHand_outs :
    isExtendedD palmHand 8 7 = true ∧ isExtendedD palmHand 12 11 = true ∧
    isExtendedD palmHand 16 15 = true ∧ isExtendedD palmHand 20 19 = true := by
  refine ⟨?_, ?_, ?_, ?_⟩ <;>
    rw [show palmHand = mkHand ⟨0.9, 0⟩ ⟨0.5, 0⟩ ⟨0.5, 0⟩ ⟨0.5, 0⟩ ⟨0.5, 0⟩ from rfl]
  · rw [isExtendedD_x (by norm_num : (0:ℝ) ≤ 0.5) (ptD_mk8 _ _ _ _ _) (ptD_mk7 _ _ _ _ _)
      (ptD_mk0 _ _ _ _ _)]
    exact decide_eq_true (by norm_num)
  · rw [isExtendedD_x (by norm_num : (0:ℝ) ≤ 0.5) (ptD_mk12 _ _ _ _ _) (ptD_mk11 _ _ _ _ _)
      (ptD_mk0 _ _ _ _ _)]
    exact decide_eq_true (by norm_num)
  · rw [isExtendedD_x (by norm_num : (0:ℝ) ≤ 0.5) (ptD_mk16 _ _ _ _ _) (ptD_mk15 _ _ _ _ _)
      (ptD_mk0 _ _ _ _ _)]
    exact decide_eq_true (by norm_num)
  · rw [isExtendedD_x (by norm_num : (0:ℝ) ≤ 0.5) (ptD_mk20 _ _ _ _ _) (ptD_mk19 _ _ _ _ _)
      (ptD_mk0 _ _ _ _ _)]
    exact decide_eq_true (by norm_num)

/-- All four fingers of the palm-with-pinch test hand are classified
extended. -/
theorem palmPinchHand_outs :
    isExtendedD palmPinchHand 8 7 = true ∧ isExtendedD palmPinchHand 12 11 = true ∧
    isExtendedD palmPinchHand 16 15 = true ∧ isExtendedD palmPinchHand 20 19 = true := by
  refine ⟨?_, ?_, ?_, ?_⟩ <;>
    rw [show palmPinchHand = mkHand ⟨0.45, 0⟩ ⟨0.5, 0⟩ ⟨0.5, 0⟩ ⟨0.5, 0⟩ ⟨0.5, 0⟩ from rfl]
  · rw [isExtendedD_x (by norm_num : (0:ℝ) ≤ 0.5) (ptD_mk8 _ _ _ _ _) (ptD_mk7 _ _ _ _ _)
      (ptD_mk0 _ _ _ _ _)]
    exact decide_eq_true (by norm_num)
  · rw [isExtendedD_x (by norm_num : (0:ℝ) ≤ 0.5) (ptD_mk12 _ _ _ _ _) (ptD_mk11 _ _ _ _ _)
      (ptD_mk0 _ _ _ _ _)]
    exact decide_eq_true (by norm_num)
  · rw [isExtendedD_x (by norm_num : (0:ℝ) ≤ 0.5) (ptD_mk16 _ _ _ _ _) (ptD_mk15 _ _ _ _ _)
      (ptD_mk0 _ _ _ _ _)]
    exact decide_eq_true (by norm_num)
  · rw [isExtendedD_x (by norm_num : (0:ℝ) ≤ 0.5) (ptD_mk20 _ _ _ _ _) (ptD_mk19 _ _ _ _ _)
      (ptD_mk0 _ _ _ _ _)]
    exact decide_eq_true (by norm_num)

/-- Only the index finger of the pointing test hand is classified
extended. -/
theorem pointHand_outs (a : ℝ) :
    isExtendedD (pointHand a) 8 7 = true ∧ isExtendedD (pointHand a) 12 11 = false ∧
    isExtendedD (pointHand a) 16 15 = false ∧ isExtendedD (pointHand a) 20 19 = false := by
  refine ⟨?_, ?_, ?_, ?_⟩ <;>
    rw [show pointHand a = mkHand ⟨a, 0⟩ ⟨0.5, 0⟩ ⟨0.1, 0⟩ ⟨0.1, 0⟩ ⟨0.1, 0⟩ from rfl]
  · rw [isExtendedD_x (by norm_num : (0:ℝ) ≤ 0.5) (ptD_mk8 _ _ _ _ _) (ptD_mk7 _ _ _ _ _)
      (ptD_mk0 _ _ _ _ _)]
    exact decide_eq_true (by norm_num)
  · rw [isExtendedD_x (by norm_num : (0:ℝ) ≤ 0.1) (ptD_mk12 _ _ _ _ _) (ptD_mk11 _ _ _ _ _)
      (ptD_mk0 _ _ _ _ _)]
    exact decide_eq_false (by norm_num)
  · rw [isExtendedD_x (by norm_num : (0:ℝ) ≤ 0.1) (ptD_mk16 _ _ _ _ _) (ptD_mk15 _ _ _ _ _)
      (ptD_mk0 _ _ _ _ _)]
    exact decide_eq_false (by norm_num)
  · rw [isExtendedD_x (by norm_num : (0:ℝ) ≤ 0.1) (ptD_mk20 _ _ _ _ _) (ptD_mk19 _ _ _ _ _)
      (ptD_mk0 _ _ _ _ _)]
    exact decide_eq_false (by norm_num)

end AlphaView

namespace AlphaView

/-- With the fingertip resting where it was last seen and the smoothing at
rest, the pre-click state only switches the status to DETECTING. -/
theorem preClickState_still {s : InterpState} (hsm : s.smoothedPos = ⟨0, 0⟩) :
    preClickState s ⟨0.5, 0⟩ ⟨0.5, 0⟩ =
      { s with status := .detecting, smoothedPos := ⟨0, 0⟩ } := by
  unfold preClickState smoothState smoothPoint deadzone
  rw [hsm]
  have h1 : |(0.5 : ℝ) - 0.5| < DEADZONE := by rw [DEADZONE]; norm_num
  have h2 : |(0 : ℝ) - 0| < DEADZONE := by rw [DEADZONE]; norm_num
  rw [if_pos h1, if_pos h2]
  simp only [InterpState.mk.injEq, Pt.mk.injEq]
  norm_num

/-- Evaluation form of one single-hand detected frame with a previous
fingertip: the step is the click block followed by the decision tree on
the frame's extension flags and pinch distance. -/
theorem processFrame_det_eq {s : InterpState} {t : ℤ} {f : Frame} {hand : Hand} {q : Pt}
    (hLL : s.lastLandmark = some q) (h0 : f.get? 0 = some hand) (hlen : hand.length = 21) :
    processFrame s f t =
      (match decideStep (clickStep (preClickState s (ptD hand 8) q)
          (hypot ((ptD hand 8).x - (ptD hand 4).x) ((ptD hand 8).y - (ptD hand 4).y))
          (ptD hand 8) t).1 f hand
          (isExtendedD hand 8 7 && isExtendedD hand 12 11 &&
           isExtendedD hand 16 15 && isExtendedD hand 20 19)
          (isExtendedD hand 8 7) (isExtendedD hand 12 11) (isExtendedD hand 16 15) t with
       | .error e => .error e
       | .ok ds =>
         .ok ({ ds.1 with lastLandmark := some (ptD hand 8) },
              (clickStep (preClickState s (ptD hand 8) q)
                (hypot ((ptD hand 8).x - (ptD hand 4).x) ((ptD hand 8).y - (ptD hand 4).y))
                (ptD hand 8) t).2 ++ ds.2)) := by
  simp only [processFrame, h0,
    getLm_ok_of_lt (by omega : (8:ℕ) < hand.length),
    getLm_ok_of_lt (by omega : (4:ℕ) < hand.length),
    isExtended_wf (by omega : (8:ℕ) < hand.length) (by omega : (7:ℕ) < hand.length) (by omega),
    isExtended_wf (by omega : (12:ℕ) < hand.length) (by omega : (11:ℕ) < hand.length) (by omega),
    isExtended_wf (by omega : (16:ℕ) < hand.length) (by omega : (15:ℕ) < hand.length) (by omega),
    isExtended_wf (by omega : (20:ℕ) < hand.length) (by omega : (19:ℕ) < hand.length) (by omega),
    hLL]
  unfold preClickState
  rw [hLL]

end AlphaView

namespace AlphaView

/-- Thumb-index distance of the pointing hand with thumb at x = 0.1. -/
theorem tapDist_point01 :
    hypot ((ptD (pointHand 0.1) 8).x - (ptD (pointHand 0.1) 4).x)
      ((ptD (pointHand 0.1) 8).y - (ptD (pointHand 0.1) 4).y) = 0.4 := by
  rw [show ptD (pointHand 0.1) 8 = ⟨0.5, 0⟩ from rfl,
      show ptD (pointHand 0.1) 4 = ⟨0.1, 0⟩ from rfl]
  show hypot (0.5 - 0.1) (0 - 0) = 0.4
  rw [show (0.5:ℝ) - 0.1 = 0.4 by norm_num, show (0:ℝ) - 0 = 0 by norm_num]
  exact hypot_nonneg_x (by norm_num)

/-- One-finger frame at rest with the pinch released (thumb at x = 0.1,
distance 0.4): the latch is released and a rotate event of zero magnitude
is emitted. -/
theorem eval_pointFar {s : InterpState} {t : ℤ}
    (hLL : s.lastLandmark = some ⟨0.5, 0⟩) (hsm : s.smoothedPos = ⟨0, 0⟩)
    (hnl : ¬(t - s.lastClickTime < 400)) :
    processFrame s [pointHand 0.1] t =
      .ok ({ s with
             status := .detecting
             smoothedPos := ⟨0, 0⟩
             isTapped := false
             activeGesture := some .rotateL
             lastLandmark := some ⟨0.5, 0⟩ },
           [GestureEvent.rotate 0 0]) := by
  rw [processFrame_det_eq hLL
      (show List.get? [pointHand 0.1] 0 = some (pointHand 0.1) from rfl)
      (show (pointHand 0.1).length = 21 from rfl)]
  obtain ⟨o1, o2, o3, o4⟩ := pointHand_outs 0.1
  rw [o1, o2, o3, o4, tapDist_point01,
      show ptD (pointHand 0.1) 8 = ⟨0.5, 0⟩ from rfl,
      preClickState_still hsm]
  have hcs : clickStep { s with status := .detecting, smoothedPos := ⟨0, 0⟩ }
      (0.4 : ℝ) ⟨0.5, 0⟩ t
      = ({ s with status := .detecting, smoothedPos := ⟨0, 0⟩, isTapped := false }, []) := by
    unfold clickStep
    rw [if_neg (by rw [CLICK_THRESHOLD]; norm_num), if_pos (by rw [CLICK_RELEASE]; norm_num)]
  rw [hcs]
  have hds : decideStep
      { s with status := .detecting, smoothedPos := ⟨0, 0⟩, isTapped := false }
      [pointHand 0.1] (pointHand 0.1) (true && false && false && false) true false false t
      = .ok ({ s with
               status := .detecting
               smoothedPos := ⟨0, 0⟩
               isTapped := false
               activeGesture := some .rotateL },
             [GestureEvent.rotate 0 0]) := by
    simp only [decideStep, Bool.and_false, Bool.false_and, Bool.and_true, Bool.true_and,
      Bool.false_eq_true, if_false, hnl, List.length_cons, List.length_nil,
      Bool.not_false, Bool.and_self]
    norm_num [GAIN]
  rw [hds]
  norm_num

end AlphaView

namespace AlphaView

/-- Thumb-index distance of the pointing hand with thumb left of the
index tip. -/
theorem tapDist_point {a : ℝ} (ha : a ≤ 0.5) :
    hypot ((ptD (pointHand a) 8).x - (ptD (pointHand a) 4).x)
      ((ptD (pointHand a) 8).y - (ptD (pointHand a) 4).y) = 0.5 - a := by
  rw [show ptD (pointHand a) 8 = ⟨0.5, 0⟩ from rfl,
      show ptD (pointHand a) 4 = ⟨a, 0⟩ from rfl]
  show hypot (0.5 - a) (0 - 0) = 0.5 - a
  rw [show (0:ℝ) - 0 = 0 by norm_num]
  exact hypot_nonneg_x (by linarith)

/-- Thumb-index distance of the open-palm test hand (thumb at x = 0.9). -/
theorem tapDist_palm :
    hypot ((ptD palmHand 8).x - (ptD palmHand 4).x)
      ((ptD palmHand 8).y - (ptD palmHand 4).y) = 0.4 := by
  rw [show ptD palmHand 8 = ⟨0.5, 0⟩ from rfl,
      show ptD palmHand 4 = ⟨0.9, 0⟩ from rfl]
  show hypot (0.5 - 0.9) (0 - 0) = 0.4
  rw [show (0:ℝ) - 0 = 0 by norm_num]
  rw [hypot_nonpos_x (by norm_num : (0.5:ℝ) - 0.9 ≤ 0)]
  norm_num

/-- Thumb-index distance of the palm-with-pinch hand (thumb at x = 0.45). -/
theorem tapDist_palmPinch :
    hypot ((ptD palmPinchHand 8).x - (ptD palmPinchHand 4).x)
      ((ptD palmPinchHand 8).y - (ptD palmPinchHand 4).y) = 0.05 := by
  rw [show ptD palmPinchHand 8 = ⟨0.5, 0⟩ from rfl,
      show ptD palmPinchHand 4 = ⟨0.45, 0⟩ from rfl]
  show hypot (0.5 - 0.45) (0 - 0) = 0.05
  rw [show (0:ℝ) - 0 = 0 by norm_num, show (0.5:ℝ) - 0.45 = 0.05 by norm_num]
  exact hypot_nonneg_x (by norm_num)

/-- One-finger frame at rest engaging the pinch (distance 0.05 with the
latch free): one click fires and the decision tree is locked out. -/
theorem eval_pointEngage {s : InterpState} {t : ℤ}
    (hLL : s.lastLandmark = some ⟨0.5, 0⟩) (hsm : s.smoothedPos = ⟨0, 0⟩)
    (hTap : s.isTapped = false) :
    processFrame s [pointHand 0.45] t =
      .ok ({ s with
             status := .detecting
             smoothedPos := ⟨0, 0⟩
             activeGesture := some .clickL
             isTapped := true
             lastClickTime := t
             lastLandmark := some ⟨0.5, 0⟩ },
           [GestureEvent.click 0.5 0]) := by
  rw [processFrame_det_eq hLL
      (show List.get? [pointHand 0.45] 0 = some (pointHand 0.45) from rfl)
      (show (pointHand 0.45).length = 21 from rfl)]
  obtain ⟨o1, o2, o3, o4⟩ := pointHand_outs 0.45
  rw [o1, o2, o3, o4, tapDist_point (by norm_num : (0.45:ℝ) ≤ 0.5),
      show (0.5:ℝ) - 0.45 = 0.05 by norm_num,
      show ptD (pointHand 0.45) 8 = ⟨0.5, 0⟩ from rfl,
      preClickState_still hsm]
  have hcs : clickStep { s with status := .detecting, smoothedPos := ⟨0, 0⟩ }
      (0.05 : ℝ) ⟨0.5, 0⟩ t
      = ({ s with
           status := .detecting
           smoothedPos := ⟨0, 0⟩
           activeGesture := some .clickL
           isTapped := true
           lastClickTime := t },
         [GestureEvent.click 0.5 0]) := by
    unfold clickStep
    rw [if_pos (by rw [CLICK_THRESHOLD]; norm_num : (0.05:ℝ) < CLICK_THRESHOLD)]
    simp only [hTap, Bool.false_eq_true, if_false]
  rw [hcs]
  have hds : decideStep
      { s with
        status := .detecting
        smoothedPos := ⟨0, 0⟩
        activeGesture := some .clickL
        isTapped := true
        lastClickTime := t }
      [pointHand 0.45] (pointHand 0.45) (true && false && false && false) true false false t
      = .ok ({ s with
               status := .detecting
               smoothedPos := ⟨0, 0⟩
               activeGesture := some .clickL
               isTapped := true
               lastClickTime := t }, []) := by
    simp only [decideStep, Bool.and_false, Bool.false_eq_true, if_false]
    rw [if_pos (by omega : t - t < 400)]
  rw [hds]
  rfl

/-- One-finger frame at rest inside the hysteresis band (distance 0.08):
the latch is untouched and a rotate event of zero magnitude is emitted. -/
theorem eval_pointMid {s : InterpState} {t : ℤ}
    (hLL : s.lastLandmark = some ⟨0.5, 0⟩) (hsm : s.smoothedPos = ⟨0, 0⟩)
    (hnl : ¬(t - s.lastClickTime < 400)) :
    processFrame s [pointHand 0.42] t =
      .ok ({ s with
             status := .detecting
             smoothedPos := ⟨0, 0⟩
             activeGesture := some .rotateL
             lastLandmark := some ⟨0.5, 0⟩ },
           [GestureEvent.rotate 0 0]) := by
  rw [processFrame_det_eq hLL
      (show List.get? [pointHand 0.42] 0 = some (pointHand 0.42) from rfl)
      (show (pointHand 0.42).length = 21 from rfl)]
  obtain ⟨o1, o2, o3, o4⟩ := pointHand_outs 0.42
  rw [o1, o2, o3, o4, tapDist_point (by norm_num : (0.42:ℝ) ≤ 0.5),
      show (0.5:ℝ) - 0.42 = 0.08 by norm_num,
      show ptD (pointHand 0.42) 8 = ⟨0.5, 0⟩ from rfl,
      preClickState_still hsm]
  have hcs : clickStep { s with status := .detecting, smoothedPos := ⟨0, 0⟩ }
      (0.08 : ℝ) ⟨0.5, 0⟩ t
      = ({ s with status := .detecting, smoothedPos := ⟨0, 0⟩ }, []) := by
    unfold clickStep
    rw [if_neg (by rw [CLICK_THRESHOLD]; norm_num : ¬((0.08:ℝ) < CLICK_THRESHOLD)),
        if_neg (by rw [CLICK_RELEASE]; norm_num : ¬((0.08:ℝ) > CLICK_RELEASE))]
  rw [hcs]
  have hds : decideStep { s with status := .detecting, smoothedPos := ⟨0, 0⟩ }
      [pointHand 0.42] (pointHand 0.42) (true && false && false && false) true false false t
      = .ok ({ s with
               status := .detecting
               smoothedPos := ⟨0, 0⟩
               activeGesture := some .rotateL },
             [GestureEvent.rotate 0 0]) := by
    simp only [decideStep, Bool.and_false, Bool.false_and, Bool.and_true, Bool.true_and,
      Bool.false_eq_true, if_false, hnl, List.length_cons, List.length_nil,
      Bool.not_false, Bool.and_self]
    norm_num [GAIN]
  rw [hds]
  norm_num

end AlphaView

namespace AlphaView

/-- Open-palm frame at rest with the reset cooldown elapsed: exactly one
reset fires and `lastResetTime` is stamped. -/
theorem eval_palmFire {s : InterpState} {t : ℤ}
    (hLL : s.lastLandmark = some ⟨0.5, 0⟩) (hsm : s.smoothedPos = ⟨0, 0⟩)
    (hcd : t - s.lastResetTime > 2000) :
    processFrame s [palmHand] t =
      .ok ({ s with
             status := .detecting
             smoothedPos := ⟨0, 0⟩
             isTapped := false
             activeGesture := some .resetL
             lastResetTime := t
             lastLandmark := some ⟨0.5, 0⟩ },
           [GestureEvent.reset]) := by
  rw [processFrame_det_eq hLL
      (show List.get? [palmHand] 0 = some palmHand from rfl)
      (show palmHand.length = 21 from rfl)]
  obtain ⟨o1, o2, o3, o4⟩ := palmHand_outs
  rw [o1, o2, o3, o4, tapDist_palm,
      show ptD palmHand 8 = ⟨0.5, 0⟩ from rfl,
      preClickState_still hsm]
  have hcs : clickStep { s with status := .detecting, smoothedPos := ⟨0, 0⟩ }
      (0.4 : ℝ) ⟨0.5, 0⟩ t
      = ({ s with status := .detecting, smoothedPos := ⟨0, 0⟩, isTapped := false }, []) := by
    unfold clickStep
    rw [if_neg (by rw [CLICK_THRESHOLD]; norm_num), if_pos (by rw [CLICK_RELEASE]; norm_num)]
  rw [hcs]
  have hds : decideStep
      { s with status := .detecting, smoothedPos := ⟨0, 0⟩, isTapped := false }
      [palmHand] palmHand (true && true && true && true) true true true t
      = .ok ({ s with
               status := .detecting
               smoothedPos := ⟨0, 0⟩
               isTapped := false
               activeGesture := some .resetL
               lastResetTime := t },
             [GestureEvent.reset]) := by
    simp only [decideStep, Bool.and_self, if_true]
    rw [if_pos (by exact hcd : t - ({ s with status := .detecting, smoothedPos := ⟨0, 0⟩, isTapped := false } : InterpState).lastResetTime > 2000)]
  rw [hds]
  rfl

/-- Open-palm frame at rest inside the reset cooldown: the reset is
silently suppressed (no event, `lastResetTime` untouched). -/
theorem eval_palmCooldown {s : InterpState} {t : ℤ}
    (hLL : s.lastLandmark = some ⟨0.5, 0⟩) (hsm : s.smoothedPos = ⟨0, 0⟩)
    (hcd : ¬(t - s.lastResetTime > 2000)) :
    processFrame s [palmHand] t =
      .ok ({ s with
             status := .detecting
             smoothedPos := ⟨0, 0⟩
             isTapped := false
             lastLandmark := some ⟨0.5, 0⟩ }, []) := by
  rw [processFrame_det_eq hLL
      (show List.get? [palmHand] 0 = some palmHand from rfl)
      (show palmHand.length = 21 from rfl)]
  obtain ⟨o1, o2, o3, o4⟩ := palmHand_outs
  rw [o1, o2, o3, o4, tapDist_palm,
      show ptD palmHand 8 = ⟨0.5, 0⟩ from rfl,
      preClickState_still hsm]
  have hcs : clickStep { s with status := .detecting, smoothedPos := ⟨0, 0⟩ }
      (0.4 : ℝ) ⟨0.5, 0⟩ t
      = ({ s with status := .detecting, smoothedPos := ⟨0, 0⟩, isTapped := false }, []) := by
    unfold clickStep
    rw [if_neg (by rw [CLICK_THRESHOLD]; norm_num), if_pos (by rw [CLICK_RELEASE]; norm_num)]
  rw [hcs]
  have hds : decideStep
      { s with status := .detecting, smoothedPos := ⟨0, 0⟩, isTapped := false }
      [palmHand] palmHand (true && true && true && true) true true true t
      = .ok ({ s with status := .detecting, smoothedPos := ⟨0, 0⟩, isTapped := false }, []) := by
    simp only [decideStep, Bool.and_self, if_true]
    rw [if_neg (by exact hcd : ¬(t - ({ s with status := .detecting, smoothedPos := ⟨0, 0⟩, isTapped := false } : InterpState).lastResetTime > 2000))]
  rw [hds]
  rfl

/-- Palm-with-pinch frame at rest, latch free, cooldown elapsed: a click
AND a reset are emitted in the same frame. -/
theorem eval_palmPinch {s : InterpState} {t : ℤ}
    (hLL : s.lastLandmark = some ⟨0.5, 0⟩) (hsm : s.smoothedPos = ⟨0, 0⟩)
    (hTap : s.isTapped = false) (hcd : t - s.lastResetTime > 2000) :
    processFrame s [palmPinchHand] t =
      .ok ({ s with
             status := .detecting
             smoothedPos := ⟨0, 0⟩
             activeGesture := some .resetL
             isTapped := true
             lastClickTime := t
             lastResetTime := t
             lastLandmark := some ⟨0.5, 0⟩ },
           [GestureEvent.click 0.5 0, GestureEvent.reset]) := by
  rw [processFrame_det_eq hLL
      (show List.get? [palmPinchHand] 0 = some palmPinchHand from rfl)
      (show palmPinchHand.length = 21 from rfl)]
  obtain ⟨o1, o2, o3, o4⟩ := palmPinchHand_outs
  rw [o1, o2, o3, o4, tapDist_palmPinch,
      show ptD palmPinchHand 8 = ⟨0.5, 0⟩ from rfl,
      preClickState_still hsm]
  have hcs : clickStep { s with status := .detecting, smoothedPos := ⟨0, 0⟩ }
      (0.05 : ℝ) ⟨0.5, 0⟩ t
      = ({ s with
           status := .detecting
           smoothedPos := ⟨0, 0⟩
           activeGesture := some .clickL
           isTapped := true
           lastClickTime := t },
         [GestureEvent.click 0.5 0]) := by
    unfold clickStep
    rw [if_pos (by rw [CLICK_THRESHOLD]; norm_num : (0.05:ℝ) < CLICK_THRESHOLD)]
    simp only [hTap, Bool.false_eq_true, if_false]
  rw [hcs]
  have hds : decideStep
      { s with
        status := .detecting
        smoothedPos := ⟨0, 0⟩
        activeGesture := some .clickL
        isTapped := true
        lastClickTime := t }
      [palmPinchHand] palmPinchHand (true && true && true && true) true true true t
      = .ok ({ s with
               status := .detecting
               smoothedPos := ⟨0, 0⟩
               activeGesture := some .resetL
               isTapped := true
               lastClickTime := t
               lastResetTime := t },
             [GestureEvent.reset]) := by
    simp only [decideStep, Bool.and_self, if_true]
    rw [if_pos (by exact hcd : t - ({ s with status := .detecting, smoothedPos := ⟨0, 0⟩, activeGesture := some GLabel.clickL, isTapped := true, lastClickTime := t } : InterpState).lastResetTime > 2000)]
  rw [hds]
  rfl

end AlphaView

namespace AlphaView

/-- Two-hand frame at rest with a previous pinch separation of 0.08 and a
current index-tip separation of 0.1: a zoom of (0.1 - 0.08) * 20 = 0.4 is
emitted and the new separation is recorded. -/
theorem eval_zoom {s : InterpState} {t : ℤ}
    (hLL : s.lastLandmark = some ⟨0.5, 0⟩) (hsm : s.smoothedPos = ⟨0, 0⟩)
    (hnl : ¬(t - s.lastClickTime < 400)) (hpd : s.lastPinchDist = some 0.08) :
    processFrame s [pointHand 0.1, zoomHand] t =
      .ok ({ s with
             status := .detecting
             smoothedPos := ⟨0, 0⟩
             isTapped := false
             activeGesture := some .zoomL
             lastPinchDist := some 0.1
             lastLandmark := some ⟨0.5, 0⟩ },
           [GestureEvent.zoom 0.4]) := by
  rw [processFrame_det_eq hLL
      (show List.get? [pointHand 0.1, zoomHand] 0 = some (pointHand 0.1) from rfl)
      (show (pointHand 0.1).length = 21 from rfl)]
  obtain ⟨o1, o2, o3, o4⟩ := pointHand_outs 0.1
  rw [o1, o2, o3, o4, tapDist_point01,
      show ptD (pointHand 0.1) 8 = ⟨0.5, 0⟩ from rfl,
      preClickState_still hsm]
  have hcs : clickStep { s with status := .detecting, smoothedPos := ⟨0, 0⟩ }
      (0.4 : ℝ) ⟨0.5, 0⟩ t
      = ({ s with status := .detecting, smoothedPos := ⟨0, 0⟩, isTapped := false }, []) := by
    unfold clickStep
    rw [if_neg (by rw [CLICK_THRESHOLD]; norm_num), if_pos (by rw [CLICK_RELEASE]; norm_num)]
  rw [hcs]
  have hzd : decideStep
      { s with status := .detecting, smoothedPos := ⟨0, 0⟩, isTapped := false }
      [pointHand 0.1, zoomHand] (pointHand 0.1) (true && false && false && false)
      true false false t
      = .ok ({ s with
               status := .detecting
               smoothedPos := ⟨0, 0⟩
               isTapped := false
               activeGesture := some .zoomL
               lastPinchDist := some 0.1 },
             [GestureEvent.zoom 0.4]) := by
    rw [@decideStep_zoom
      { s with status := .detecting, smoothedPos := ⟨0, 0⟩, isTapped := false }
      [pointHand 0.1, zoomHand] (pointHand 0.1) zoomHand
      (true && false && false && false) true false false t ⟨0.5, 0⟩ ⟨0.6, 0⟩ 0.08
      (by simp) (by exact hnl) (by rfl) (by rfl) (by rfl) (by rfl) (by exact hpd)]
    have hd : hypot ((⟨0.5, 0⟩ : Pt).x - (⟨0.6, 0⟩ : Pt).x)
        ((⟨0.5, 0⟩ : Pt).y - (⟨0.6, 0⟩ : Pt).y) = 0.1 := by
      show hypot (0.5 - 0.6) (0 - 0) = 0.1
      rw [show (0:ℝ) - 0 = 0 by norm_num,
          hypot_nonpos_x (by norm_num : (0.5:ℝ) - 0.6 ≤ 0)]
      norm_num
    rw [hd, show ((0.1:ℝ) - 0.08) * 20 = 0.4 by norm_num]
    rw [if_pos (show |(0.4:ℝ)| > 0.005 by
      rw [abs_of_nonneg (by norm_num : (0:ℝ) ≤ 0.4)]; norm_num)]
  rw [hzd]
  rfl

end AlphaView

namespace AlphaView

/-- A successful finger-extension test computes the pure classification. -/
theorem isExtended_ok_eq {lms : Hand} {a b : ℕ} {io : Bool}
    (h : isExtended lms a b = .ok io) : io = isExtendedD lms a b := by
  unfold isExtended at h
  cases ht : getLm lms a with
  | error e => rw [ht] at h; exact Except.noConfusion h
  | ok tip =>
    rw [ht] at h
    cases hd : getLm lms b with
    | error e => rw [hd] at h; exact Except.noConfusion h
    | ok dip =>
      rw [hd] at h
      cases hw : getLm lms 0 with
      | error e => rw [hw] at h; exact Except.noConfusion h
      | ok wrist =>
        rw [hw] at h
        injection h with h
        unfold isExtendedD
        rw [getLm_ok_ptD ht, getLm_ok_ptD hd, getLm_ok_ptD hw, h]

/-- Claim C1: for every processed frame with at least one detected hand,
the interpreter produces exactly one GestureEvent variant, never two, for
any combination of landmark positions. REFUTED: on an open-palm frame
whose thumb tip simultaneously crosses the pinch engage threshold (latch
free, reset cooldown elapsed), the click block and the decision tree each
fire, emitting a Click AND a Reset in one frame. -/
theorem claim_C1_counterexample :
    processFrame wBase [palmPinchHand] 10000 =
      .ok ({ wBase with
             status := .detecting
             smoothedPos := ⟨0, 0⟩
             activeGesture := some .resetL
             isTapped := true
             lastClickTime := 10000
             lastResetTime := 10000
             lastLandmark := some ⟨0.5, 0⟩ },
           [GestureEvent.click 0.5 0, GestureEvent.reset]) ∧
    ([GestureEvent.click 0.5 0, GestureEvent.reset] : List GestureEvent).length = 2 := by
  refine ⟨?_, rfl⟩
  exact eval_palmPinch rfl rfl rfl
    (by rw [show wBase.lastResetTime = (0:ℤ) from rfl]; norm_num)

/-- Claim C1 (amended): every successfully processed frame emits at most
two events, and the only two-event case is a Click immediately followed by
a Reset (a pinch engage coinciding with an eligible open palm); apart from
that case, at most one event is produced per frame. -/
theorem claim_C1_amended {s : InterpState} {f : Frame} {t : ℤ}
    {s' : InterpState} {evs : List GestureEvent}
    (h : processFrame s f t = .ok (s', evs)) :
    evs.length ≤ 2 ∧
    (evs.length = 2 → evs.map eventTag = [GTag.clickT, GTag.resetT]) :=
  processFrame_shape h

/-- Concrete two-event instance of the amended claim C1. -/
theorem claim_C1_amended_witness :
    processFrame wBase [palmPinchHand] 10000 =
      .ok ({ wBase with
             status := .detecting
             smoothedPos := ⟨0, 0⟩
             activeGesture := some .resetL
             isTapped := true
             lastClickTime := 10000
             lastResetTime := 10000
             lastLandmark := some ⟨0.5, 0⟩ },
           [GestureEvent.click 0.5 0, GestureEvent.reset]) ∧
    (([GestureEvent.click 0.5 0, GestureEvent.reset] : List GestureEvent).length ≤ 2 ∧
     (([GestureEvent.click 0.5 0, GestureEvent.reset] : List GestureEvent).length = 2 →
       ([GestureEvent.click 0.5 0, GestureEvent.reset] : List GestureEvent).map eventTag =
         [GTag.clickT, GTag.resetT])) := by
  have he := eval_palmPinch (s := wBase) (t := 10000) rfl rfl rfl
    (by rw [show wBase.lastResetTime = (0:ℤ) from rfl]; norm_num)
  exact ⟨he, claim_C1_amended he⟩

/-- Claim C2: the per-frame step never throws, a finger with a missing
wrist, dip or tip landmark being classified as not extended (fail closed).
REFUTED: the code reads the landmark properties without any guard, so a
detected hand with missing landmarks makes the step throw (modelled as
`.error ()`), here a hand with an empty landmark list. -/
theorem claim_C2_counterexample :
    processFrame initState [([] : Hand)] 0 = .error () := rfl

/-- Claim C2 (amended): on every frame whose detected hands each carry the
full 21 landmarks, the per-frame step never throws; frames with missing
landmarks are outside the code's guarantees (it throws rather than
failing closed). -/
theorem claim_C2_amended (s : InterpState) (f : Frame) (t : ℤ)
    (hwf : wfFrame f = true) :
    processFrame s f t ≠ .error () := by
  obtain ⟨out, hout⟩ := processFrame_total s f t hwf
  rw [hout]
  exact fun hx => Except.noConfusion hx

/-- Concrete no-throw instance of the amended claim C2. -/
theorem claim_C2_amended_witness :
    wfFrame [palmHand] = true ∧
    processFrame wBase [palmHand] 10000 ≠ .error () :=
  ⟨rfl, claim_C2_amended wBase [palmHand] 10000 rfl⟩

/-- Claim C3: a frame with zero detected hands resets the smoothing state
(smoothedPos) to zero. REFUTED: the zero-hand branch clears
`lastLandmark`, `lastPinchDist` and the gesture label but leaves
`smoothedPos` untouched, here at (1, 1). -/
theorem claim_C3_counterexample :
    processFrame { wBase with smoothedPos := ⟨1, 1⟩ } [] 0 =
      .ok ({ wBase with
             smoothedPos := ⟨1, 1⟩
             status := .notFound
             activeGesture := none
             lastLandmark := none
             lastPinchDist := none }, []) ∧
    ({ wBase with
       smoothedPos := ⟨1, 1⟩
       status := .notFound
       activeGesture := none
       lastLandmark := none
       lastPinchDist := none } : InterpState).smoothedPos = ⟨1, 1⟩ ∧
    (⟨1, 1⟩ : Pt) ≠ (⟨0, 0⟩ : Pt) := by
  refine ⟨rfl, rfl, ?_⟩
  intro hx
  have hx1 : (1 : ℝ) = 0 := congrArg Pt.x hx
  norm_num at hx1

/-- Claim C3 (amended): a zero-hand frame sets the status to NOT_FOUND,
clears the gesture label, the last fingertip and the pinch distance, and
emits nothing, but the exponential-smoothing state is left unchanged, not
reset to zero. -/
theorem claim_C3_amended (s : InterpState) (t : ℤ) :
    processFrame s [] t =
      .ok ({ s with
             status := .notFound
             activeGesture := none
             lastLandmark := none
             lastPinchDist := none }, []) ∧
    ({ s with
       status := .notFound
       activeGesture := none
       lastLandmark := none
       lastPinchDist := none } : InterpState).smoothedPos = s.smoothedPos :=
  ⟨rfl, rfl⟩

/-- Claim C4: a stop-then-start cycle of the camera begins with a fresh
InterpreterState. REFUTED: `toggleCamera` never touches the interpreter
refs, so the click latch (among all other refs) survives the cycle. -/
theorem claim_C4_counterexample :
    ((toggleCamera (toggleCamera
        { cameraActive := true,
          interp := { wBase with isTapped := true } }).1).1).interp.isTapped = true ∧
    initState.isTapped = false :=
  ⟨rfl, rfl⟩

/-- Claim C4 (amended): stopping and restarting the camera leaves every
interpreter ref (last fingertip, smoothed velocity, pinch distance, click
latch, click and reset timestamps) exactly as it was; a fresh
InterpreterState exists only when the component is first created. -/
theorem claim_C4_amended (c : CompState) (hact : c.cameraActive = true) :
    ((toggleCamera (toggleCamera c).1).1).cameraActive = true ∧
    ((toggleCamera (toggleCamera c).1).1).interp.lastLandmark = c.interp.lastLandmark ∧
    ((toggleCamera (toggleCamera c).1).1).interp.smoothedPos = c.interp.smoothedPos ∧
    ((toggleCamera (toggleCamera c).1).1).interp.lastPinchDist = c.interp.lastPinchDist ∧
    ((toggleCamera (toggleCamera c).1).1).interp.isTapped = c.interp.isTapped ∧
    ((toggleCamera (toggleCamera c).1).1).interp.lastClickTime = c.interp.lastClickTime ∧
    ((toggleCamera (toggleCamera c).1).1).interp.lastResetTime = c.interp.lastResetTime := by
  unfold toggleCamera
  rw [if_pos hact]
  simp

/-- Concrete stop-start instance of the amended claim C4. -/
theorem claim_C4_amended_witness :
    ((toggleCamera (toggleCamera
        { cameraActive := true,
          interp := { wBase with isTapped := true, lastResetTime := 500 } }).1).1).cameraActive = true ∧
    ((toggleCamera (toggleCamera
        { cameraActive := true,
          interp := { wBase with isTapped := true, lastResetTime := 500 } }).1).1).interp.isTapped = true ∧
    ((toggleCamera (toggleCamera
        { cameraActive := true,
          interp := { wBase with isTapped := true, lastResetTime := 500 } }).1).1).interp.lastResetTime = 500 := by
  have hc := claim_C4_amended
    { cameraActive := true, interp := { wBase with isTapped := true, lastResetTime := 500 } } rfl
  exact ⟨hc.1, hc.2.2.2.2.1, hc.2.2.2.2.2.2⟩

end AlphaView

namespace AlphaView

/-- Claim C5: over any sequence of detected-hand frames whose thumb-index
distance starts at or above the engage threshold, crosses below it for one
contiguous block, and afterwards stays at or above it with at least one
frame above the release threshold, exactly one Click event is emitted:
the latch fires on the crossing frame and the hysteresis gap prevents any
further click until a release. -/
theorem claim_C5 {s : InterpState} {A B C : List (Frame × ℤ)}
    {s2 : InterpState} {evss : List (List GestureEvent)}
    (hTap : s.isTapped = false) (hLL : ∃ q, s.lastLandmark = some q)
    (hA : ∀ p ∈ A, (∃ lms, List.get? p.1 0 = some lms) ∧
      ¬(tapDistOf p.1 < CLICK_THRESHOLD))
    (hBne : B ≠ [])
    (hB : ∀ p ∈ B, (∃ lms, List.get? p.1 0 = some lms) ∧
      tapDistOf p.1 < CLICK_THRESHOLD)
    (hC : ∀ p ∈ C, (∃ lms, List.get? p.1 0 = some lms) ∧
      ¬(tapDistOf p.1 < CLICK_THRESHOLD))
    (hRel : ∃ p ∈ C, tapDistOf p.1 > CLICK_RELEASE)
    (hrun : runFrames s (A ++ B ++ C) = .ok (s2, evss)) :
    countClicks evss.flatten = 1 := by
  clear hRel
  obtain ⟨b0, Bt, rfl⟩ : ∃ b0 Bt, B = b0 :: Bt := by
    cases B with
    | nil => exact absurd rfl hBne
    | cons b0 Bt => exact ⟨b0, Bt, rfl⟩
  obtain ⟨sAB, evsAB, evsC, hAB, hCrun, rfl⟩ := runFrames_append_inv hrun
  obtain ⟨sA, evsA, evsB, hArun, hBrun, rfl⟩ := runFrames_append_inv hAB
  obtain ⟨cntA, hLLA, hTapA⟩ := runFrames_no_engage hArun hA hLL
  obtain ⟨b0f, b0t⟩ := b0
  obtain ⟨s1, evs0, evssBt, hstep, hBt, rfl⟩ := runFrames_cons_inv hBrun
  obtain ⟨⟨lms0, h00⟩, htd0⟩ := hB (b0f, b0t) (List.mem_cons_self _ _)
  obtain ⟨qA, hqA⟩ := hLLA
  obtain ⟨hcnt0, htap0, hrec0⟩ := processFrame_click hstep h00 hqA
  have hc1 : countClicks evs0 = 1 := by
    rw [hcnt0, if_pos ⟨htd0, hTapA hTap⟩]
  have hT1 : s1.isTapped = true := by
    rw [htap0, if_pos htd0]
  obtain ⟨cntBt, hTBt, hLLBt⟩ := runFrames_latched hBt
    (fun p hm => hB p (List.mem_cons_of_mem _ hm)) hT1 ⟨_, hrec0⟩
  obtain ⟨cntC, hLLC, _⟩ := runFrames_no_engage hCrun hC hLLBt
  rw [List.flatten_append, List.flatten_append, List.flatten_cons,
    countClicks_append, countClicks_append, countClicks_append,
    cntA, hc1, cntBt, cntC]

/-- Concrete four-frame instance of claim C5: distances 0.4, 0.05, 0.08,
0.4 across the engage/release thresholds produce exactly one Click. -/
theorem claim_C5_witness :
    runFrames wBase
      [([pointHand 0.1], 1000), ([pointHand 0.45], 2000),
       ([pointHand 0.42], 3000), ([pointHand 0.1], 4000)] =
      .ok ({ wBase with
             status := .detecting
             smoothedPos := ⟨0, 0⟩
             isTapped := false
             activeGesture := some .rotateL
             lastClickTime := 2000
             lastLandmark := some ⟨0.5, 0⟩ },
           [[GestureEvent.rotate 0 0], [GestureEvent.click 0.5 0],
            [GestureEvent.rotate 0 0], [GestureEvent.rotate 0 0]]) ∧
    countClicks ([[GestureEvent.rotate 0 0], [GestureEvent.click 0.5 0],
      [GestureEvent.rotate 0 0], [GestureEvent.rotate 0 0]] :
      List (List GestureEvent)).flatten = 1 := by
  have h1 := eval_pointFar (s := wBase) (t := 1000) rfl rfl
    (by rw [show wBase.lastClickTime = (0:ℤ) from rfl]; norm_num)
  have h2 := eval_pointEngage
    (s := { wBase with
            status := .detecting
            smoothedPos := ⟨0, 0⟩
            isTapped := false
            activeGesture := some .rotateL
            lastLandmark := some ⟨0.5, 0⟩ }) (t := 2000) rfl rfl rfl
  have h3 := eval_pointMid
    (s := { wBase with
            status := .detecting
            smoothedPos := ⟨0, 0⟩
            activeGesture := some .clickL
            isTapped := true
            lastClickTime := 2000
            lastLandmark := some ⟨0.5, 0⟩ }) (t := 3000) rfl rfl (by norm_num)
  have h4 := eval_pointFar
    (s := { wBase with
            status := .detecting
            smoothedPos := ⟨0, 0⟩
            activeGesture := some .rotateL
            isTapped := true
            lastClickTime := 2000
            lastLandmark := some ⟨0.5, 0⟩ }) (t := 4000) rfl rfl (by norm_num)
  have hrun : runFrames wBase
      [([pointHand 0.1], 1000), ([pointHand 0.45], 2000),
       ([pointHand 0.42], 3000), ([pointHand 0.1], 4000)] =
      .ok ({ wBase with
             status := .detecting
             smoothedPos := ⟨0, 0⟩
             isTapped := false
             activeGesture := some .rotateL
             lastClickTime := 2000
             lastLandmark := some ⟨0.5, 0⟩ },
           [[GestureEvent.rotate 0 0], [GestureEvent.click 0.5 0],
            [GestureEvent.rotate 0 0], [GestureEvent.rotate 0 0]]) := by
    simp only [runFrames, h1, h2, h3, h4]
  refine ⟨hrun, ?_⟩
  have hclaim := claim_C5 (A := [([pointHand 0.1], 1000)])
    (B := [([pointHand 0.45], 2000)])
    (C := [([pointHand 0.42], 3000), ([pointHand 0.1], 4000)])
    (s := wBase) rfl ⟨⟨0.5, 0⟩, rfl⟩
    ?_ (by simp) ?_ ?_ ?_ hrun
  · exact hclaim
  · intro p hm
    rw [List.mem_singleton] at hm
    subst hm
    refine ⟨⟨pointHand 0.1, rfl⟩, ?_⟩
    rw [show tapDistOf [pointHand 0.1] = 0.4 from tapDist_point01, CLICK_THRESHOLD]
    norm_num
  · intro p hm
    rw [List.mem_singleton] at hm
    subst hm
    refine ⟨⟨pointHand 0.45, rfl⟩, ?_⟩
    rw [show tapDistOf [pointHand 0.45] = 0.5 - 0.45 from
      tapDist_point (by norm_num), CLICK_THRESHOLD]
    norm_num
  · intro p hm
    rw [List.mem_cons, List.mem_singleton] at hm
    rcases hm with hm | hm <;> subst hm
    · refine ⟨⟨pointHand 0.42, rfl⟩, ?_⟩
      rw [show tapDistOf [pointHand 0.42] = 0.5 - 0.42 from
        tapDist_point (by norm_num), CLICK_THRESHOLD]
      norm_num
    · refine ⟨⟨pointHand 0.1, rfl⟩, ?_⟩
      rw [show tapDistOf [pointHand 0.1] = 0.4 from tapDist_point01, CLICK_THRESHOLD]
      norm_num
  · refine ⟨([pointHand 0.1], 4000), ?_, ?_⟩
    · rw [List.mem_cons, List.mem_singleton]
      exact Or.inr rfl
    · rw [show tapDistOf [pointHand 0.1] = 0.4 from tapDist_point01, CLICK_RELEASE]
      norm_num

end AlphaView

namespace AlphaView

/-- Claim C6: at most one Reset fires per 2000 ms cooldown window. Part
one: any two Reset events emitted in one processed sequence (timestamps
nondecreasing) are more than 2000 ms apart. Part two: a frame classified
as an open palm that arrives while the cooldown is still running emits no
Reset, and nothing is queued: `lastResetTime` stays unchanged and the only
event the frame can still emit is a click of the independent pinch latch. -/
theorem claim_C6 :
    (∀ (s : InterpState) (f1 : Frame) (t1 : ℤ) (M : List (Frame × ℤ))
       (f2 : Frame) (t2 : ℤ) (s1 sM s2 : InterpState)
       (e1 : List GestureEvent) (eM : List (List GestureEvent))
       (e2 : List GestureEvent),
       (∀ p ∈ M, t1 ≤ p.2) → t1 ≤ t2 →
       processFrame s f1 t1 = .ok (s1, e1) → GestureEvent.reset ∈ e1 →
       runFrames s1 M = .ok (sM, eM) →
       processFrame sM f2 t2 = .ok (s2, e2) → GestureEvent.reset ∈ e2 →
       t2 - t1 > 2000) ∧
    (∀ (s : InterpState) (f : Frame) (t : ℤ) (lms : Hand)
       (s' : InterpState) (evs : List GestureEvent),
       f.get? 0 = some lms →
       (isExtendedD lms 8 7 && isExtendedD lms 12 11 &&
        isExtendedD lms 16 15 && isExtendedD lms 20 19) = true →
       ¬(t - s.lastResetTime > 2000) →
       processFrame s f t = .ok (s', evs) →
       GestureEvent.reset ∉ evs ∧ s'.lastResetTime = s.lastResetTime ∧
       (∀ e ∈ evs, isClickEv e = true)) := by
  constructor
  · intro s f1 t1 M f2 t2 s1 sM s2 e1 eM e2 hM ht12 hp1 hr1 hrM hp2 hr2
    have h1 := (processFrame_reset hp1).1 hr1
    have hlb : t1 ≤ sM.lastResetTime :=
      runFrames_resetTime_lb hrM hM (by rw [h1.2])
    have h2 := (processFrame_reset hp2).1 hr2
    omega
  · intro s f t lms s' evs h0 hpal hcd h
    have hr := processFrame_reset h
    have hnm : GestureEvent.reset ∉ evs := fun hm => hcd ((hr.1 hm).1)
    refine ⟨hnm, hr.2 hnm, ?_⟩
    rcases processFrame_inv h with ⟨g0, hevs, _⟩ |
      ⟨lms2, g0, gLL, hevs, _⟩ |
      ⟨lms2, q, io, mo, ro, po, ds, g0, gLL, hio, hmo, hro, hpo, hds, hevs, hs⟩
    · rw [h0] at g0
      exact Option.noConfusion g0
    · subst hevs
      intro e he
      exact absurd he (List.not_mem_nil e)
    · rw [h0] at g0
      injection g0 with g0
      subst g0
      have hioD := isExtended_ok_eq hio
      have hmoD := isExtended_ok_eq hmo
      have hroD := isExtended_ok_eq hro
      have hpoD := isExtended_ok_eq hpo
      have hpal2 : (io && mo && ro && po) = true := by
        rw [hioD, hmoD, hroD, hpoD]
        exact hpal
      have hcd2 : ¬(t - (clickStep (preClickState s (ptD lms 8) q) (tapDistOf f)
          (ptD lms 8) t).1.lastResetTime > 2000) := by
        obtain ⟨pLL, pPD, pRT, pSm, pSt⟩ :=
          clickStep_preserves (preClickState s (ptD lms 8) q) (tapDistOf f) (ptD lms 8) t
        rw [pRT, (preClickState_fields s (ptD lms 8) q).2.2.1]
        exact hcd
      rw [decideStep_palm_cooldown hpal2 hcd2] at hds
      injection hds with hds
      subst hevs
      rw [← hds]
      intro e he
      rw [List.append_nil] at he
      have hcs2 := clickStep_events (preClickState s (ptD lms 8) q) (tapDistOf f) (ptD lms 8) t
      rw [hcs2] at he
      split at he
      · rw [List.mem_singleton] at he
        subst he
        rfl
      · exact absurd he (List.not_mem_nil e)

/-- Concrete instance of claim C6: two palm resets 2001 ms apart both fire
and are more than 2000 ms apart, and a palm frame 1000 ms after a reset is
suppressed without touching `lastResetTime`. -/
theorem claim_C6_witness :
    processFrame wBase [palmHand] 10000 =
      .ok ({ wBase with
             status := .detecting
             smoothedPos := ⟨0, 0⟩
             isTapped := false
             activeGesture := some .resetL
             lastResetTime := 10000
             lastLandmark := some ⟨0.5, 0⟩ },
           [GestureEvent.reset]) ∧
    processFrame
      { wBase with
        status := .detecting
        smoothedPos := ⟨0, 0⟩
        isTapped := false
        activeGesture := some .resetL
        lastResetTime := 10000
        lastLandmark := some ⟨0.5, 0⟩ } [palmHand] 12001 =
      .ok ({ wBase with
             status := .detecting
             smoothedPos := ⟨0, 0⟩
             isTapped := false
             activeGesture := some .resetL
             lastResetTime := 12001
             lastLandmark := some ⟨0.5, 0⟩ },
           [GestureEvent.reset]) ∧
    (12001 : ℤ) - 10000 > 2000 ∧
    processFrame { wBase with lastResetTime := 9000 } [palmHand] 10000 =
      .ok ({ wBase with
             lastResetTime := 9000
             status := .detecting
             smoothedPos := ⟨0, 0⟩
             isTapped := false
             lastLandmark := some ⟨0.5, 0⟩ }, []) ∧
    GestureEvent.reset ∉ ([] : List GestureEvent) ∧
    ({ wBase with
       lastResetTime := 9000
       status := .detecting
       smoothedPos := ⟨0, 0⟩
       isTapped := false
       lastLandmark := some ⟨0.5, 0⟩ } : InterpState).lastResetTime =
      ({ wBase with lastResetTime := 9000 } : InterpState).lastResetTime := by
  have h1 := eval_palmFire (s := wBase) (t := 10000) rfl rfl
    (by rw [show wBase.lastResetTime = (0:ℤ) from rfl]; norm_num)
  have h2 := eval_palmFire
    (s := { wBase with
            status := .detecting
            smoothedPos := ⟨0, 0⟩
            isTapped := false
            activeGesture := some .resetL
            lastResetTime := 10000
            lastLandmark := some ⟨0.5, 0⟩ }) (t := 12001) rfl rfl (by norm_num)
  have h3 := eval_palmCooldown (s := { wBase with lastResetTime := 9000 })
    (t := 10000) rfl rfl (by norm_num)
  have hgap := claim_C6.1 wBase [palmHand] 10000 [] [palmHand] 12001
    _ _ _ _ _ _ (by intro p hm; exact absurd hm (List.not_mem_nil p)) (by norm_num)
    h1 (List.mem_singleton.mpr rfl) rfl h2 (List.mem_singleton.mpr rfl)
  have hsup := claim_C6.2 { wBase with lastResetTime := 9000 } [palmHand] 10000
    palmHand _ _ rfl
    (by obtain ⟨o1, o2, o3, o4⟩ := palmHand_outs; rw [o1, o2, o3, o4]; rfl)
    (by norm_num) h3
  exact ⟨h1, h2, hgap, h3, hsup.1, hsup.2.1⟩

end AlphaView

namespace AlphaView

/-- Claim C7: on every frame reaching the two-hand pinch-zoom branch with
a previous pinch distance (previous fingertip present, no open palm, no
click firing, no click lockout, exactly two hands), the interpreter
computes delta = (separation - lastPinchDistance) * 20, emits Zoom(delta)
iff its magnitude exceeds the 0.005 threshold, and always records the new
separation. -/
theorem claim_C7 {s : InterpState} {f : Frame} {lms : Hand} {q : Pt}
    {t : ℤ} {lp : ℝ} {s' : InterpState} {evs : List GestureEvent}
    (h0 : f.get? 0 = some lms) (hLL : s.lastLandmark = some q)
    (hpal : (isExtendedD lms 8 7 && isExtendedD lms 12 11 &&
             isExtendedD lms 16 15 && isExtendedD lms 20 19) = false)
    (hne : ¬(tapDistOf f < CLICK_THRESHOLD ∧ s.isTapped = false))
    (hnl : ¬(t - s.lastClickTime < 400))
    (hlen : f.length = 2)
    (hlp : s.lastPinchDist = some lp)
    (h : processFrame s f t = .ok (s', evs)) :
    s'.lastPinchDist = some (pinchDistOf f) ∧
    evs.filter isZoomEv =
      (if |(pinchDistOf f - lp) * 20| > 0.005
       then [GestureEvent.zoom ((pinchDistOf f - lp) * 20)] else []) := by
  rcases processFrame_inv h with ⟨g0, _, _⟩ |
    ⟨lms2, g0, gLL, _, _⟩ |
    ⟨lms2, q2, io, mo, ro, po, ds, g0, gLL, hio, hmo, hro, hpo, hds, hevs, hs⟩
  · rw [h0] at g0
    exact Option.noConfusion g0
  · rw [hLL] at gLL
    exact Option.noConfusion gLL
  · rw [h0] at g0
    injection g0 with g0
    subst g0
    rw [hLL] at gLL
    injection gLL with gLL
    subst gLL
    have hpal2 : (io && mo && ro && po) = false := by
      rw [isExtended_ok_eq hio, isExtended_ok_eq hmo,
          isExtended_ok_eq hro, isExtended_ok_eq hpo]
      exact hpal
    obtain ⟨pLL, pPD, pRT, pSm, pSt⟩ :=
      clickStep_preserves (preClickState s (ptD lms 8) q) (tapDistOf f) (ptD lms 8) t
    have hpcT : (preClickState s (ptD lms 8) q).isTapped = s.isTapped :=
      (preClickState_fields s (ptD lms 8) q).1
    have hcs2 := clickStep_events (preClickState s (ptD lms 8) q) (tapDistOf f) (ptD lms 8) t
    have hck := clickStep_lastClickTime (preClickState s (ptD lms 8) q) (tapDistOf f) (ptD lms 8) t
    simp only [hpcT] at hcs2 hck
    rw [if_neg hne] at hcs2 hck
    have hpcC : (preClickState s (ptD lms 8) q).lastClickTime = s.lastClickTime :=
      (preClickState_fields s (ptD lms 8) q).2.1
    have hnl2 : ¬(t - (clickStep (preClickState s (ptD lms 8) q) (tapDistOf f)
        (ptD lms 8) t).1.lastClickTime < 400) := by
      rw [hck, hpcC]
      exact hnl
    have hlp2 : (clickStep (preClickState s (ptD lms 8) q) (tapDistOf f)
        (ptD lms 8) t).1.lastPinchDist = some lp := by
      rw [pPD, (preClickState_fields s (ptD lms 8) q).2.2.2.1]
      exact hlp
    obtain ⟨hand2, hh2, hdsPD, hdsEv⟩ :=
      decideStep_zoom_inv hpal2 hnl2 hlen hlp2 hds
    have hpinch : pinchDistOf f =
        hypot ((ptD lms 8).x - (ptD hand2 8).x) ((ptD lms 8).y - (ptD hand2 8).y) := by
      unfold pinchDistOf
      rw [h0, hh2]
      rfl
    constructor
    · rw [hs]
      show ds.1.lastPinchDist = some (pinchDistOf f)
      rw [hdsPD, hpinch]
    · subst hevs
      rw [List.filter_append, hcs2, hdsEv, hpinch]
      split
      · rfl
      · rfl

/-- Concrete instance of claim C7: index-tip separations 0.08 then 0.1
with zoom gain 20 yield exactly Zoom(0.4). -/
theorem claim_C7_witness :
    processFrame { wBase with lastPinchDist := some 0.08 }
      [pointHand 0.1, zoomHand] 1000 =
      .ok ({ wBase with
             lastPinchDist := some 0.1
             status := .detecting
             smoothedPos := ⟨0, 0⟩
             isTapped := false
             activeGesture := some .zoomL
             lastLandmark := some ⟨0.5, 0⟩ },
           [GestureEvent.zoom 0.4]) ∧
    ({ wBase with
       lastPinchDist := some 0.1
       status := .detecting
       smoothedPos := ⟨0, 0⟩
       isTapped := false
       activeGesture := some .zoomL
       lastLandmark := some ⟨0.5, 0⟩ } : InterpState).lastPinchDist =
      some (pinchDistOf [pointHand 0.1, zoomHand]) ∧
    ([GestureEvent.zoom 0.4].filter isZoomEv =
      (if |(pinchDistOf [pointHand 0.1, zoomHand] - 0.08) * 20| > 0.005
       then [GestureEvent.zoom ((pinchDistOf [pointHand 0.1, zoomHand] - 0.08) * 20)]
       else [])) := by
  have he : processFrame { wBase with lastPinchDist := some 0.08 }
      [pointHand 0.1, zoomHand] 1000 =
      .ok ({ wBase with
             lastPinchDist := some 0.1
             status := .detecting
             smoothedPos := ⟨0, 0⟩
             isTapped := false
             activeGesture := some .zoomL
             lastLandmark := some ⟨0.5, 0⟩ },
           [GestureEvent.zoom 0.4]) := by
    have hz := eval_zoom (s := { wBase with lastPinchDist := some 0.08 })
      (t := 1000) rfl rfl (by rw [show ({ wBase with lastPinchDist := some 0.08 } :
        InterpState).lastClickTime = (0:ℤ) from rfl]; norm_num) rfl
    exact hz
  have hc := claim_C7
    (show List.get? [pointHand 0.1, zoomHand] 0 = some (pointHand 0.1) from rfl)
    (show ({ wBase with lastPinchDist := some 0.08 } : InterpState).lastLandmark =
      some ⟨0.5, 0⟩ from rfl)
    (by obtain ⟨o1, o2, o3, o4⟩ := pointHand_outs 0.1; rw [o1, o2, o3, o4]; rfl)
    (by
      intro hcon
      have hx := hcon.1
      rw [show tapDistOf [pointHand 0.1, zoomHand] = 0.4 by
        unfold tapDistOf
        exact tapDist_point01, CLICK_THRESHOLD] at hx
      norm_num at hx)
    (by rw [show ({ wBase with lastPinchDist := some 0.08 } :
        InterpState).lastClickTime = (0:ℤ) from rfl]; norm_num)
    rfl rfl he
  exact ⟨he, hc.1, hc.2⟩

end AlphaView

namespace AlphaView

/-- Closed form of the smoothing recurrence with ALPHA = 0.4. -/
theorem smoothIter_closed (d : ℝ) (n : ℕ) :
    smoothIter d n = d * (1 - (0.6 : ℝ) ^ n) := by
  induction n with
  | zero => simp [smoothIter]
  | succ k ih =>
    rw [show smoothIter d (k + 1) = ALPHA * d + (1 - ALPHA) * smoothIter d k from rfl,
        ih, ALPHA]
    ring

/-- Claim C8: feeding a constant raw displacement d into the source's
exponential smoothing (ALPHA = 0.4) starting from zero makes the smoothed
value approach d monotonically without ever overshooting d: the residual
shrinks every frame, the smoothed value never exceeds d in magnitude, the
residual keeps the sign of d, and the sequence converges to d. -/
theorem claim_C8 (d : ℝ) :
    (∀ n, |d - smoothIter d (n + 1)| ≤ |d - smoothIter d n|) ∧
    (∀ n, |smoothIter d n| ≤ |d|) ∧
    (∀ n, 0 ≤ (d - smoothIter d n) * d) ∧
    Filter.Tendsto (smoothIter d) Filter.atTop (nhds d) := by
  have hres : ∀ n, d - smoothIter d n = d * (0.6 : ℝ) ^ n := by
    intro n
    rw [smoothIter_closed]
    ring
  refine ⟨?_, ?_, ?_, ?_⟩
  · intro n
    rw [hres, hres, abs_mul, abs_mul]
    refine mul_le_mul_of_nonneg_left ?_ (abs_nonneg d)
    rw [abs_pow, abs_pow, abs_of_nonneg (by norm_num : (0:ℝ) ≤ 0.6)]
    exact pow_le_pow_of_le_one (by norm_num) (by norm_num) (Nat.le_succ n)
  · intro n
    rw [smoothIter_closed, abs_mul]
    have h1 : |1 - (0.6 : ℝ) ^ n| ≤ 1 := by
      rw [abs_of_nonneg (by
        have := pow_le_one₀ (by norm_num : (0:ℝ) ≤ 0.6) (by norm_num : (0.6:ℝ) ≤ 1) (n := n)
        linarith)]
      have := pow_nonneg (by norm_num : (0:ℝ) ≤ 0.6) n
      linarith
    calc |d| * |1 - (0.6:ℝ) ^ n| ≤ |d| * 1 :=
          mul_le_mul_of_nonneg_left h1 (abs_nonneg d)
      _ = |d| := mul_one _
  · intro n
    rw [hres]
    have h1 : (0:ℝ) ≤ (0.6:ℝ) ^ n := pow_nonneg (by norm_num) n
    calc (0:ℝ) ≤ d * d * (0.6:ℝ) ^ n := mul_nonneg (mul_self_nonneg d) h1
      _ = d * (0.6:ℝ) ^ n * d := by ring
  · have hpow : Filter.Tendsto (fun n => (0.6 : ℝ) ^ n) Filter.atTop (nhds 0) :=
      tendsto_pow_atTop_nhds_zero_of_lt_one (by norm_num) (by norm_num)
    have h1 : Filter.Tendsto (fun n => d * (1 - (0.6 : ℝ) ^ n)) Filter.atTop
        (nhds (d * (1 - 0))) :=
      Filter.Tendsto.mul tendsto_const_nhds
        (Filter.Tendsto.sub tendsto_const_nhds hpow)
    have h2 : d * (1 - 0) = d := by ring
    rw [h2] at h1
    exact Filter.Tendsto.congr (fun n => (smoothIter_closed d n).symm) h1

/-- Claim C9: on the first detected-hand frame after acquisition (no
previous fingertip recorded), the interpreter emits no event of any kind,
records the index tip, clears the pinch distance, and leaves every other
piece of state (smoothing, latch, timestamps) untouched: the gesture
evaluation is skipped entirely. -/
theorem claim_C9 {s : InterpState} {f : Frame} {t : ℤ} {lms : Hand}
    (hLL : s.lastLandmark = none) (h0 : f.get? 0 = some lms)
    (hwf : wfFrame f = true) :
    processFrame s f t =
      .ok ({ s with
             status := .detecting
             lastPinchDist := none
             lastLandmark := some (ptD lms 8) }, []) := by
  obtain ⟨⟨s', evs⟩, hout⟩ := processFrame_total s f t hwf
  rcases processFrame_inv hout with ⟨g0, _, _⟩ |
    ⟨lms2, g0, gLL, hevs, hs⟩ |
    ⟨lms2, q, io, mo, ro, po, ds, g0, gLL, hio, hmo, hro, hpo, hds, hevs, hs⟩
  · rw [h0] at g0
    exact Option.noConfusion g0
  · rw [h0] at g0
    injection g0 with g0
    subst g0
    rw [hout, hevs, hs]
  · rw [hLL] at gLL
    exact Option.noConfusion gLL

/-- Concrete instance of claim C9: the first palm frame after acquisition
records the fingertip and emits nothing. -/
theorem claim_C9_witness :
    processFrame initState [palmHand] 5 =
      .ok ({ initState with
             status := .detecting
             lastPinchDist := none
             lastLandmark := some (ptD palmHand 8) }, []) ∧
    ptD palmHand 8 = ⟨0.5, 0⟩ :=
  ⟨claim_C9 rfl rfl rfl, rfl⟩

end AlphaView

namespace AlphaView

/-- The decision tree reads the frame only through its hand count and the
second hand\'s landmark 8. -/
theorem decideStep_congr {s : InterpState} {lms : Hand}
    {pal io mo ro : Bool} {t : ℤ} {f1 f2 : Frame}
    (hlen : f1.length = f2.length)
    (h18 : (f1.get? 1).bind (fun h => List.get? h 8) =
           (f2.get? 1).bind (fun h => List.get? h 8)) :
    decideStep s f1 lms pal io mo ro t = decideStep s f2 lms pal io mo ro t := by
  unfold decideStep
  rw [hlen]
  by_cases hpal : pal = true
  · simp [hpal]
  · have hpal2 : pal = false := by
      cases pal
      · rfl
      · exact absurd rfl hpal
    simp only [hpal2, Bool.false_eq_true, if_false]
    by_cases hlk : t - s.lastClickTime < 400
    · rw [if_pos hlk, if_pos hlk]
    · rw [if_neg hlk, if_neg hlk]
      by_cases hl2 : (f2.length == 2) = true
      · rw [if_pos hl2, if_pos hl2]
        cases h8 : getLm lms 8 with
        | error e => rfl
        | ok p1 =>
          cases hg1 : f1.get? 1 with
          | none =>
            cases hg2 : f2.get? 1 with
            | none => rfl
            | some hand2 =>
              rw [hg1, hg2] at h18
              simp only [Option.bind] at h18
              cases hg28 : List.get? hand2 8 with
              | none =>
                have hgl : getLm hand2 8 = .error () := by
                  unfold getLm
                  rw [hg28]
                simp only [hgl]
              | some p =>
                rw [hg28] at h18
                exact Option.noConfusion h18
          | some hand1 =>
            cases hg2 : f2.get? 1 with
            | none =>
              rw [hg1, hg2] at h18
              simp only [Option.bind] at h18
              cases hg18 : List.get? hand1 8 with
              | none =>
                have hgl : getLm hand1 8 = .error () := by
                  unfold getLm
                  rw [hg18]
                simp only [hgl]
              | some p =>
                rw [hg18] at h18
                exact Option.noConfusion h18
            | some hand2 =>
              rw [hg1, hg2] at h18
              simp only [Option.bind] at h18
              have hgl : getLm hand1 8 = getLm hand2 8 := by
                unfold getLm
                rw [h18]
              simp only [hgl]
      · rw [if_neg hl2, if_neg hl2]

/-- Claim C10: two frames agreeing on the number of detected hands, on the
first hand's landmarks and on the second hand's index tip (landmark 8)
are processed identically from any state: the second hand's other
landmarks never influence the interpreter. -/
theorem claim_C10 {s : InterpState} {t : ℤ} {f1 f2 : Frame}
    (hlen : f1.length = f2.length)
    (h0 : f1.get? 0 = f2.get? 0)
    (h18 : (f1.get? 1).bind (fun h => List.get? h 8) =
           (f2.get? 1).bind (fun h => List.get? h 8)) :
    processFrame s f1 t = processFrame s f2 t := by
  unfold processFrame
  rw [h0]
  cases hg : f2.get? 0 with
  | none => rfl
  | some lms =>
    simp only [decideStep_congr hlen h18]

/-- Concrete instance of claim C10: two two-hand frames whose second hands
agree only on landmark 8 produce identical results. -/
theorem claim_C10_witness :
    ([pointHand 0.1, zoomHand] : Frame).length = ([pointHand 0.1, zoomHandAlt] : Frame).length ∧
    ([pointHand 0.1, zoomHand] : Frame).get? 0 = ([pointHand 0.1, zoomHandAlt] : Frame).get? 0 ∧
    (([pointHand 0.1, zoomHand] : Frame).get? 1).bind (fun h => List.get? h 8) =
      (([pointHand 0.1, zoomHandAlt] : Frame).get? 1).bind (fun h => List.get? h 8) ∧
    zoomHand ≠ zoomHandAlt ∧
    processFrame wBase [pointHand 0.1, zoomHand] 1000 =
      processFrame wBase [pointHand 0.1, zoomHandAlt] 1000 := by
  refine ⟨rfl, rfl, rfl, ?_, claim_C10 rfl rfl rfl⟩
  intro hx
  have h4 : ptD zoomHand 4 = ptD zoomHandAlt 4 := by rw [hx]
  rw [show ptD zoomHand 4 = ⟨0.1, 0⟩ from rfl,
      show ptD zoomHandAlt 4 = ⟨0.3, 0⟩ from rfl] at h4
  have hxx : (0.1 : ℝ) = 0.3 := congrArg Pt.x h4
  norm_num at hxx

end AlphaView
